import Mathlib

/-!
Shallow embedding of the SCANORAMA adapter
(`src/popv/algorithms/_scanorama.py`) and proofs of the specification's
testable properties about it.

The adapter holds string keys into a shared annotated-data container and
three parameter dictionaries, and exposes `compute_integration`, `predict`
and `compute_embedding`.  The container is embedded as `PopV.AnnData`:
observation names, a feature matrix, string-keyed observation columns,
string-keyed representation matrices (`obsm`), string-keyed pairwise
matrices (`obsp`) and string-keyed global values (`uns`).  Mutation is
explicit state passing; a raised Python exception is `PyRes.err`, carrying
the container state the caller observes when the exception propagates.

External collaborators (the scanorama integration routine, the scikit-learn
k-nearest-neighbor classifier, the scanpy neighbors/UMAP routines) are not
part of the repository; where their behaviour matters it is modelled from
the specification, as marked on the individual definitions.  The
runtime-wide accelerator toggle is fixed to the CPU path, which the
specification states is functionally equivalent to the GPU path.
-/

namespace PopV

attribute [local semireducible] Rat.add Rat.sub Rat.mul Rat.inv

/-- Values that can appear in one of the adapter's parameter dictionaries. -/
inductive PValue where
  | nat : Nat → PValue
  | str : String → PValue
  | rat : ℚ → PValue
deriving DecidableEq

/-- Parameter dictionary: an association list of keyword arguments, in
insertion order, as a Python `dict`. -/
abbrev PDict := List (String × PValue)

/-- First-match lookup in an association list (Python `d[k]`). -/
def Assoc.find {α : Type} (k : String) : List (String × α) → Option α
  | [] => none
  | kv :: rest => if kv.1 = k then some kv.2 else Assoc.find k rest

/-- Key assignment in an association list (Python `d[k] = v`): replace the
first entry with that key in place, or append a new entry. -/
def Assoc.set {α : Type} (k : String) (v : α) : List (String × α) → List (String × α)
  | [] => [(k, v)]
  | kv :: rest => if kv.1 = k then (k, v) :: rest else kv :: Assoc.set k v rest

/-- Python `base.update(upd)`: iterate over `upd`, assigning each entry. -/
def PDict.update (base upd : PDict) : PDict :=
  upd.foldl (fun acc kv => Assoc.set kv.1 kv.2 acc) base

/-- Lookup in a parameter dictionary. -/
def PDict.lookup (k : String) (d : PDict) : Option PValue :=
  Assoc.find k d

/-- One observation-indexed metadata column of the container: a pandas
categorical column (category strings plus one integer code per
observation, `-1` encoding a missing value), a boolean column, a numeric
column, or a plain string column. -/
inductive Col where
  | cat : List String → List Int → Col
  | bool : List Bool → Col
  | num : List ℚ → Col
  | strs : List String → Col
deriving DecidableEq

/-- A numeric matrix, as a list of rows. -/
abbrev Mat := List (List ℚ)

/-- A value stored in the container's global (`uns`) mapping: a boolean
flag, or the metadata record written by the external neighbors routine. -/
inductive UnsVal where
  | bool : Bool → UnsVal
  | neighborsMeta : String → UnsVal
deriving DecidableEq

/-- Python truthiness of a global value (`if adata.uns[k]:`): a boolean is
itself, a non-empty metadata record is truthy. -/
def UnsVal.truthy : UnsVal → Bool
  | UnsVal.bool b => b
  | UnsVal.neighborsMeta _ => true

/-- The shared annotated-data container. -/
structure AnnData where
  obs_names : List String
  X : Mat
  obs : List (String × Col)
  obsm : List (String × Mat)
  obsp : List (String × Mat)
  uns : List (String × UnsVal)
deriving DecidableEq

/-- Result of running one adapter operation: normal return with the new
container state, or a raised exception (tagged with a message) together
with the container state the caller observes while handling it. -/
inductive PyRes where
  | ok : AnnData → PyRes
  | err : String → AnnData → PyRes
deriving DecidableEq

/-- The SCANORAMA adapter's configuration, immutable after construction. -/
structure SCANORAMA where
  batch_key : String
  labels_key : String
  result_key : String
  embedding_key : String
  method_dict : PDict
  classifier_dict : PDict
  embedding_dict : PDict
deriving DecidableEq

/-- Constructor `SCANORAMA.__init__`: stores the four keys and merges each
caller-supplied override dictionary over the hard-coded defaults. -/
def SCANORAMA.init
    (batch_key : String := "_batch_annotation")
    (labels_key : String := "_labels_annotation")
    (result_key : String := "popv_knn_on_scanorama_prediction")
    (embedding_key : String := "X_umap_scanorma_popv")
    (method_dict : PDict := [])
    (classifier_dict : PDict := [])
    (embedding_dict : PDict := []) : SCANORAMA :=
  { batch_key := batch_key
    labels_key := labels_key
    result_key := result_key
    embedding_key := embedding_key
    method_dict := PDict.update [("dimred", PValue.nat 50)] method_dict
    classifier_dict :=
      PDict.update [("weights", PValue.str "uniform"), ("n_neighbors", PValue.nat 15)]
        classifier_dict
    embedding_dict := PDict.update [("min_dist", PValue.rat (1 / 10))] embedding_dict }

/-- Insert into a list so that the given boolean comparison stays
respected. -/
def insertLe {α : Type} (le : α → α → Bool) (x : α) : List α → List α
  | [] => [x]
  | y :: ys => if le x y then x :: y :: ys else y :: insertLe le x ys

/-- Insertion sort by a boolean comparison. -/
def sortLe {α : Type} (le : α → α → Bool) : List α → List α
  | [] => []
  | x :: xs => insertLe le x (sortLe le xs)

/-- Row indices whose batch code equals `v`
(`adata.obs[batch_key] == i`). -/
def groupRows (codes : List Int) (v : Int) : List Nat :=
  (List.range codes.length).filter (fun i => decide (codes[i]? = some v))

/-- The distinct batch codes present, in increasing code order.
`np.unique` over the batch column returns the distinct batch values in
sorted value order; a pandas categorical stores its pairwise-distinct
category strings in sorted order, with codes assigned in that same order,
so grouping by code coincides with grouping by value and increasing code
order is increasing value order (and only the partition, never the group
order, is observable downstream). -/
def uniqueBatchCodes (codes : List Int) : List Int :=
  sortLe (fun a b => decide (a ≤ b)) codes.dedup

/-- The per-batch groups of row indices, in `np.unique` order. -/
def batchGroups (codes : List Int) : List (List Nat) :=
  (uniqueBatchCodes codes).map (groupRows codes)

/-- Observation names at the given row indices. -/
def rowsAt (names : List String) (idxs : List Nat) : List String :=
  idxs.map (fun i => names.getD i "")

/-- Per-batch groups of observation names, as handed to the external
integration routine. -/
def groupNamesOf (names : List String) (codes : List Int) : List (List String) :=
  (batchGroups codes).map (rowsAt names)

/-- Index of the first occurrence of a name in a list. -/
def firstIdx (nm : String) : List String → Option Nat
  | [] => none
  | x :: xs => if x = nm then some 0 else (firstIdx nm xs).map (· + 1)

/-- Map a fallible function over a list, failing if any element fails
(the `Option` effect of a raising Python expression inside a
comprehension). -/
def omap {α β : Type} (f : α → Option β) : List α → Option (List β)
  | [] => some []
  | x :: xs =>
    match f x, omap f xs with
    | some y, some ys => some (y :: ys)
    | _, _ => none

/-- Reindexing `tmp_adata[adata.obs_names]`: for each original observation
name, the row of the concatenated matrix carrying that name; fails on a
missing name. -/
def reindexRows (names cN : List String) (rows : Mat) : Option Mat :=
  omap (fun nm => (firstIdx nm cN).bind (fun t => rows[t]?)) names

/-- `SCANORAMA.compute_integration`: partition the rows by the batch
column, hand the groups (with the adapter's integration keyword
dictionary) to the external integration routine, concatenate the per-group
corrected matrices, reindex by the original observation names and store
the result under `"X_scanorama"` in `obsm`.  The external
`scanorama.integrate_scanpy` is out of scope and passed in as the
function `integ`, which receives the keyword dictionary and the per-group
observation names and returns one corrected matrix per group. -/
def SCANORAMA.compute_integration (s : SCANORAMA)
    (integ : PDict → List (List String) → List Mat) (a : AnnData) : PyRes :=
  match Assoc.find s.batch_key a.obs with
  | none => PyRes.err ("KeyError: " ++ s.batch_key) a
  | some (Col.cat bcats bcodes) =>
    let gN := groupNamesOf a.obs_names bcodes
    let mats := integ s.method_dict gN
    match reindexRows a.obs_names gN.flatten mats.flatten with
    | none => PyRes.err "KeyError: observation names" a
    | some m => PyRes.ok { a with obsm := Assoc.set "X_scanorama" m a.obsm }
  | some _ => PyRes.err "TypeError: batch column" a

/-- Squared euclidean distance of two rows. -/
def sqDist (a b : List ℚ) : ℚ :=
  ((a.zip b).map (fun p => (p.1 - p.2) * (p.1 - p.2))).sum

/-- Index of a row at minimal distance, earliest index on ties. -/
def argminList (dist : Nat → ℚ) : List Nat → Option Nat
  | [] => none
  | i :: is =>
    match argminList dist is with
    | none => some i
    | some j => if dist j < dist i then some j else some i

/-- The `k` indices of minimal distance among `remaining`, in increasing
distance order, ties broken by index. -/
def kNearestAux (dist : Nat → ℚ) : Nat → List Nat → List Nat
  | 0, _ => []
  | Nat.succ k', remaining =>
    match argminList dist remaining with
    | none => []
    | some j => j :: kNearestAux dist k' (remaining.erase j)

/-- Indices of the `k` training rows nearest to the query row. -/
def kNearest (k : Nat) (trainX : Mat) (q : List ℚ) : List Nat :=
  kNearestAux (fun i => sqDist (trainX.getD i []) q) k (List.range trainX.length)

/-- The distinct class codes seen in training, in increasing order
(`classes_` of the external classifier). -/
def classesOf (trainY : List Int) : List Int :=
  sortLe (fun a b => decide (a ≤ b)) trainY.dedup

/-- Modelled from the spec: the external k-nearest-neighbor classifier's
per-class probability under the uniform weighting scheme — the fraction of
the `k` selected neighbors carrying the class.  (Only the uniform scheme,
the constructor's default, is modelled; the distance scheme and the
GPU backend are external alternatives the specification treats as the
delegated library's decision rule.) -/
def classProb (k : Nat) (trainY : List Int) (neigh : List Nat) (c : Int) : ℚ :=
  ((neigh.countP (fun i => decide (trainY.getD i 0 = c)) : ℚ)) / (k : ℚ)

/-- First class code attaining the maximal value of `f` (`np.argmax` over
the class axis). -/
def argmaxList (f : Int → ℚ) : List Int → Option Int
  | [] => none
  | c :: cs =>
    match argmaxList f cs with
    | none => some c
    | some d => if f c < f d then some d else some c

/-- Modelled from the spec: the external classifier's probability row for
one query — one entry per class, in class order. -/
def probaRow (k : Nat) (trainX : Mat) (trainY : List Int) (q : List ℚ) : List ℚ :=
  (classesOf trainY).map (classProb k trainY (kNearest k trainX q))

/-- Maximum of a list of rationals (`np.max`), failing on the empty list. -/
def listMax : List ℚ → Option ℚ
  | [] => none
  | x :: xs => some (xs.foldl max x)

/-- The maximal per-class probability for one query
(`np.max(knn.predict_proba(...), axis=1)` at one row). -/
def knnProbaMax (k : Nat) (trainX : Mat) (trainY : List Int) (q : List ℚ) : Option ℚ :=
  listMax (probaRow k trainX trainY q)

/-- Modelled from the spec: the external classifier's prediction for one
query — the first class of maximal probability, as `np.argmax` over the
probability row. -/
def knnPredictOne (k : Nat) (trainX : Mat) (trainY : List Int) (q : List ℚ) : Option Int :=
  argmaxList (classProb k trainY (kNearest k trainX q)) (classesOf trainY)

/-- Row indices selected by a boolean mask column. -/
def maskIdx (mask : List Bool) : List Nat :=
  (List.range mask.length).filter (fun i => mask.getD i false)

/-- Rows of a matrix at the given indices (`adata[ref_idx].obsm[...]`). -/
def selectRows (m : Mat) (idxs : List Nat) : Mat :=
  idxs.map (fun i => m.getD i [])

/-- Codes of a categorical column at the given indices
(`adata.obs.loc[ref_idx, key].cat.codes`). -/
def selectCodes (codes : List Int) (idxs : List Nat) : List Int :=
  idxs.map (fun i => codes.getD i 0)

/-- Indexing a list by a possibly negative integer, with numpy semantics:
a negative index wraps once from the end, anything out of range fails
(`categories[knn_pred]` at one entry). -/
def pyIndex {α : Type} (l : List α) (c : Int) : Option α :=
  if 0 ≤ c then l[c.toNat]?
  else if (l.length : Int) + c < 0 then none
  else l[((l.length : Int) + c).toNat]?

/-- `SCANORAMA.predict`: select the labelled training subset via the
boolean index column `"_labelled_train_indices"`, fit the external
k-nearest-neighbor classifier on the integrated representation of that
subset, predict a label code for every observation, write the decoded
labels under the adapter's configured `result_key`, and, when the global
flag `"_return_probabilities"` is truthy, also write the maximal per-class
probability of every observation under `result_key + "_probabilities"`.
The source's `result_key` parameter is used only in the log message (which
is not modelled); the column written is named by the adapter attribute.
The global flag is read only after the result column has been written, so
a missing flag raises with the result column already in place. -/
def SCANORAMA.predict (s : SCANORAMA) (a : AnnData)
    (result_key : String := "popv_knn_on_scanorama_prediction") : PyRes :=
  match Assoc.find "_labelled_train_indices" a.obs with
  | none => PyRes.err "KeyError: _labelled_train_indices" a
  | some (Col.bool mask) =>
    if mask.length = a.obs_names.length then
      match Assoc.find "X_scanorama" a.obsm with
      | none => PyRes.err "KeyError: X_scanorama" a
      | some rep =>
        match Assoc.find s.labels_key a.obs with
        | some (Col.cat cats lcodes) =>
          let idxs := maskIdx mask
          let trainX := selectRows rep idxs
          let trainY := selectCodes lcodes idxs
          match PDict.lookup "n_neighbors" s.classifier_dict,
              PDict.lookup "weights" s.classifier_dict with
          | some (PValue.nat k), some (PValue.str "uniform") =>
            if 1 ≤ k ∧ k ≤ trainX.length then
              match omap (knnPredictOne k trainX trainY) rep with
              | none => PyRes.err "ValueError: empty training data" a
              | some pcodes =>
                match omap (pyIndex cats) pcodes with
                | none => PyRes.err "IndexError: categories" a
                | some vals =>
                  let a1 : AnnData :=
                    { a with obs := Assoc.set s.result_key (Col.strs vals) a.obs }
                  match Assoc.find "_return_probabilities" a1.uns with
                  | none => PyRes.err "KeyError: _return_probabilities" a1
                  | some v =>
                    if UnsVal.truthy v then
                      match omap (knnProbaMax k trainX trainY) rep with
                      | none => PyRes.err "ValueError: empty training data" a1
                      | some ps =>
                        PyRes.ok { a1 with
                          obs := Assoc.set (s.result_key ++ "_probabilities")
                            (Col.num ps) a1.obs }
                    else PyRes.ok a1
            else PyRes.err "ValueError: n_neighbors out of range" a
          | _, _ => PyRes.err "TypeError: classifier parameters" a
        | none => PyRes.err ("KeyError: " ++ s.labels_key) a
        | some _ => PyRes.err "AttributeError: cat accessor" a
    else PyRes.err "IndexError: boolean mask length" a
  | some _ => PyRes.err "TypeError: boolean mask expected" a

/-- Pairwise squared distances of the rows of a representation; a
stand-in for the numeric content of the external neighbor graph, which is
out of scope.  Only which keys the graph is written under matters to the
development. -/
def pairwiseDist (rep : Mat) : Mat :=
  rep.map (fun r => rep.map (fun r2 => sqDist r r2))

/-- Modelled from the spec: `sc.pp.neighbors(adata, use_rep=...)`, the
external neighbor-search routine.  It reads the named representation and
writes the shared neighbor-graph state in place: the metadata record under
`uns["neighbors"]` and the pairwise distance and connectivity matrices
under `obsp["distances"]` and `obsp["connectivities"]`. -/
def scppNeighbors (a : AnnData) (use_rep method : String) : PyRes :=
  match Assoc.find use_rep a.obsm with
  | none => PyRes.err ("KeyError: " ++ use_rep) a
  | some rep =>
    PyRes.ok { a with
      uns := Assoc.set "neighbors" (UnsVal.neighborsMeta method) a.uns
      obsp := Assoc.set "distances" (pairwiseDist rep)
        (Assoc.set "connectivities" (pairwiseDist rep) a.obsp) }

/-- Modelled from the spec: `sc.tl.umap(adata, copy=True).obsm["X_umap"]`,
the external 2-D visualization embedding.  It is computed from the stored
neighbor graph (failing when that is missing) and, with `copy=True`, does
not mutate the container; the numeric content is external and stood in by
the first two coordinates of each graph row. -/
def scTlUmapX (a : AnnData) : Option Mat :=
  (Assoc.find "distances" a.obsp).map (fun d => d.map (fun r => r.take 2))

/-- `SCANORAMA.compute_embedding`: when the global flag
`"_compute_embedding"` is truthy, run the neighbors routine on the
integrated representation (mutating the shared graph state) and store the
visualization embedding under the adapter's `embedding_key`; otherwise do
nothing.  The accelerator toggle is fixed to the CPU path, so the recorded
method is `"umap"`. -/
def SCANORAMA.compute_embedding (s : SCANORAMA) (a : AnnData) : PyRes :=
  match Assoc.find "_compute_embedding" a.uns with
  | none => PyRes.err "KeyError: _compute_embedding" a
  | some v =>
    if UnsVal.truthy v then
      match scppNeighbors a "X_scanorama" "umap" with
      | PyRes.err m a1 => PyRes.err m a1
      | PyRes.ok a1 =>
        match scTlUmapX a1 with
        | none => PyRes.err "ValueError: neighbors missing" a1
        | some um => PyRes.ok { a1 with obsm := Assoc.set s.embedding_key um a1.obsm }
    else PyRes.ok a

/-- First-some choice on options (Python dict-style fallback). -/
def oElse {α : Type} (x y : Option α) : Option α :=
  match x with
  | some v => some v
  | none => y

/-- Last-match lookup in a parameter dictionary; on a dictionary whose
keys are pairwise distinct it agrees with `PDict.lookup`. -/
def PDict.lookupLast (k : String) : PDict → Option PValue
  | [] => none
  | kv :: rest => oElse (PDict.lookupLast k rest) (if kv.1 = k then some kv.2 else none)

/-- Number of elements of a list of lists preceding block `g` in its
flattening. -/
def offsetLen {α : Type} (ls : List (List α)) (g : Nat) : Nat :=
  ((ls.take g).map List.length).sum

/-- The container state an operation's result leaves the caller with. -/
def resState : PyRes → AnnData
  | PyRes.ok a => a
  | PyRes.err _ a => a

/-- Whether an operation returned normally. -/
def isOk : PyRes → Bool
  | PyRes.ok _ => true
  | PyRes.err _ _ => false

/-! ### Concrete instances used by the witnesses -/

/-- Stand-in for the external integration routine used by the witnesses:
every observation of every group receives the one-dimensional row `[0]`. -/
def exInteg : PDict → List (List String) → List Mat :=
  fun _ gs => gs.map (fun L => L.map (fun _ => ([0] : List ℚ)))

/-- Adapter with all-default configuration. -/
def exS : SCANORAMA := SCANORAMA.init

/-- Adapter whose classifier dictionary overrides `n_neighbors` to 1. -/
def exSk1 : SCANORAMA :=
  SCANORAMA.init "_batch_annotation" "_labels_annotation"
    "popv_knn_on_scanorama_prediction" "X_umap_scanorma_popv"
    [] [("n_neighbors", PValue.nat 1)] []

/-- A three-observation, two-batch container awaiting integration. -/
def exIntegA : AnnData :=
  { obs_names := ["c0", "c1", "c2"]
    X := [[1], [2], [3]]
    obs := [("_batch_annotation", Col.cat ["b0", "b1"] [0, 1, 0])]
    obsm := [("X_pca", [[7], [8], [9]])]
    obsp := []
    uns := [] }

/-- A two-observation labelled container with an integrated
representation, parameterized by its global mapping. -/
def exPredA (u : List (String × UnsVal)) : AnnData :=
  { obs_names := ["c0", "c1"]
    X := [[1], [2]]
    obs := [("_labelled_train_indices", Col.bool [true, true]),
            ("_labels_annotation", Col.cat ["A", "B"] [0, 1])]
    obsm := [("X_scanorama", [[0], [1]])]
    obsp := []
    uns := u }

/-- A two-observation container for the embedding claims, with a
pre-existing neighbor-graph entry to be overwritten. -/
def exEmbA (flag : Bool) : AnnData :=
  { obs_names := ["c0", "c1"]
    X := [[1], [2]]
    obs := []
    obsm := [("X_scanorama", [[0], [1]])]
    obsp := [("distances", [[5]])]
    uns := [("_compute_embedding", UnsVal.bool flag)] }

/-! ### Association-list lemmas -/

theorem Assoc.find_set {α : Type} (k k' : String) (v : α) (l : List (String × α)) :
    Assoc.find k' (Assoc.set k v l) = if k = k' then some v else Assoc.find k' l := by
  induction l with
  | nil => simp [Assoc.set, Assoc.find]
  | cons kv rest ih =>
    by_cases h : kv.1 = k
    · rw [Assoc.set, if_pos h]
      by_cases h2 : k = k'
      · simp [Assoc.find, h2]
      · have hkv : kv.1 ≠ k' := by rw [h]; exact h2
        simp [Assoc.find, h2, hkv]
    · rw [Assoc.set, if_neg h]
      by_cases h2 : kv.1 = k'
      · have hk : k ≠ k' := by intro he; exact h (h2.trans he.symm)
        simp [Assoc.find, h2, hk]
      · simp [Assoc.find, h2, ih]

theorem Assoc.find_set_self {α : Type} (k : String) (v : α) (l : List (String × α)) :
    Assoc.find k (Assoc.set k v l) = some v := by
  simp [Assoc.find_set]

theorem Assoc.find_set_ne {α : Type} {k k' : String} (v : α) (l : List (String × α))
    (h : k ≠ k') : Assoc.find k' (Assoc.set k v l) = Assoc.find k' l := by
  simp [Assoc.find_set, h]

theorem Assoc.set_of_find_none {α : Type} {k : String} (v : α) {l : List (String × α)}
    (h : Assoc.find k l = none) : Assoc.set k v l = l ++ [(k, v)] := by
  induction l with
  | nil => simp [Assoc.set]
  | cons kv rest ih =>
    rw [Assoc.find] at h
    by_cases h1 : kv.1 = k
    · rw [if_pos h1] at h; exact absurd h (by simp)
    · rw [if_neg h1] at h
      rw [Assoc.set, if_neg h1, ih h, List.cons_append]

/-! ### Dictionary update lemmas -/

theorem oElse_assoc {α : Type} (x y z : Option α) :
    oElse (oElse x y) z = oElse x (oElse y z) := by
  cases x <;> rfl

theorem oElse_none_right {α : Type} (x : Option α) : oElse x none = x := by
  cases x <;> rfl

theorem PDict.lookup_update (b u : PDict) (k : String) :
    PDict.lookup k (PDict.update b u) = oElse (PDict.lookupLast k u) (PDict.lookup k b) := by
  induction u generalizing b with
  | nil => rfl
  | cons kv rest ih =>
    show PDict.lookup k (PDict.update (Assoc.set kv.1 kv.2 b) rest) = _
    rw [ih]
    have hset : PDict.lookup k (Assoc.set kv.1 kv.2 b)
        = oElse (if kv.1 = k then some kv.2 else none) (PDict.lookup k b) := by
      by_cases h : kv.1 = k
      · rw [if_pos h]
        show Assoc.find k (Assoc.set kv.1 kv.2 b) = _
        rw [h, Assoc.find_set_self]
        rfl
      · rw [if_neg h]
        show Assoc.find k (Assoc.set kv.1 kv.2 b) = oElse none (Assoc.find k b)
        rw [Assoc.find_set_ne _ _ h]
        rfl
    rw [hset, ← oElse_assoc]
    rfl

theorem PDict.lookup_eq_none {u : PDict} {k : String}
    (h : k ∉ u.map Prod.fst) : PDict.lookup k u = none := by
  induction u with
  | nil => rfl
  | cons kv rest ih =>
    simp only [List.map_cons, List.mem_cons, not_or] at h
    show Assoc.find k (kv :: rest) = none
    rw [Assoc.find, if_neg (fun he => h.1 he.symm)]
    exact ih h.2

theorem PDict.lookupLast_eq_none {u : PDict} {k : String}
    (h : k ∉ u.map Prod.fst) : PDict.lookupLast k u = none := by
  induction u with
  | nil => rfl
  | cons kv rest ih =>
    simp only [List.map_cons, List.mem_cons, not_or] at h
    rw [PDict.lookupLast, ih h.2, if_neg (fun he => h.1 he.symm)]
    rfl

theorem PDict.lookupLast_eq_lookup {u : PDict} (h : (u.map Prod.fst).Nodup) (k : String) :
    PDict.lookupLast k u = PDict.lookup k u := by
  induction u with
  | nil => rfl
  | cons kv rest ih =>
    rw [List.map_cons, List.nodup_cons] at h
    by_cases h1 : kv.1 = k
    · have hrest : PDict.lookupLast k rest = none :=
        PDict.lookupLast_eq_none (h1 ▸ h.1)
      rw [PDict.lookupLast, hrest, if_pos h1]
      show some kv.2 = Assoc.find k (kv :: rest)
      rw [Assoc.find, if_pos h1]
    · rw [PDict.lookupLast, if_neg h1, oElse_none_right, ih h.2]
      show Assoc.find k rest = Assoc.find k (kv :: rest)
      rw [Assoc.find, if_neg h1]

/-! ### Sorting lemmas -/

theorem insertLe_perm {α : Type} (le : α → α → Bool) (x : α) (l : List α) :
    (insertLe le x l).Perm (x :: l) := by
  induction l with
  | nil => exact List.Perm.refl _
  | cons y ys ih =>
    rw [insertLe]
    by_cases h : le x y = true
    · rw [if_pos h]
    · rw [if_neg h]
      exact (ih.cons y).trans (List.Perm.swap x y ys)

theorem sortLe_perm {α : Type} (le : α → α → Bool) (l : List α) :
    (sortLe le l).Perm l := by
  induction l with
  | nil => exact List.Perm.refl _
  | cons x xs ih => exact (insertLe_perm le x (sortLe le xs)).trans (ih.cons x)

/-! ### First-occurrence index lemmas -/

theorem firstIdx_getElem {nm : String} {l : List String} {t : Nat}
    (h : firstIdx nm l = some t) : l[t]? = some nm := by
  induction l generalizing t with
  | nil => simp [firstIdx] at h
  | cons x xs ih =>
    rw [firstIdx] at h
    by_cases h1 : x = nm
    · rw [if_pos h1] at h
      cases h
      simp [h1]
    · rw [if_neg h1] at h
      cases hfi : firstIdx nm xs with
      | none => rw [hfi] at h; exact absurd h (by simp)
      | some t' =>
        rw [hfi] at h
        simp only [Option.map_some', Option.some.injEq] at h
        subst h
        rw [List.getElem?_cons_succ]
        exact ih hfi

theorem firstIdx_isSome_of_mem {nm : String} {l : List String} (h : nm ∈ l) :
    (firstIdx nm l).isSome = true := by
  induction l with
  | nil => exact absurd h (by simp)
  | cons x xs ih =>
    rw [firstIdx]
    by_cases h1 : x = nm
    · rw [if_pos h1]; rfl
    · rw [if_neg h1]
      rcases List.mem_cons.mp h with he | hm
      · exact absurd he.symm h1
      · cases hfi : firstIdx nm xs with
        | none => rw [hfi] at ih; exact absurd (ih hm) (by simp)
        | some t' => rfl

theorem firstIdx_eq_of_nodup {nm : String} {l : List String} {t : Nat}
    (hnd : l.Nodup) (h : l[t]? = some nm) : firstIdx nm l = some t := by
  induction l generalizing t with
  | nil => simp at h
  | cons x xs ih =>
    rw [List.nodup_cons] at hnd
    cases t with
    | zero =>
      rw [List.getElem?_cons_zero, Option.some.injEq] at h
      rw [firstIdx, if_pos h]
    | succ t' =>
      rw [List.getElem?_cons_succ] at h
      have hmem : nm ∈ xs := List.getElem?_mem h
      have hx : x ≠ nm := fun he => hnd.1 (he ▸ hmem)
      rw [firstIdx, if_neg hx, ih hnd.2 h]
      rfl

/-! ### Fallible map lemmas -/

theorem omap_isSome {α β : Type} {f : α → Option β} {l : List α}
    (h : ∀ x ∈ l, (f x).isSome = true) : (omap f l).isSome = true := by
  induction l with
  | nil => rfl
  | cons x xs ih =>
    have hx := h x (List.mem_cons_self x xs)
    have hxs := ih (fun y hy => h y (List.mem_cons_of_mem x hy))
    rw [omap]
    cases hfx : f x with
    | none => rw [hfx] at hx; exact absurd hx (by simp)
    | some y =>
      cases ho : omap f xs with
      | none => rw [ho] at hxs; exact absurd hxs (by simp)
      | some ys => rfl

theorem omap_length {α β : Type} {f : α → Option β} {l : List α} {out : List β}
    (h : omap f l = some out) : out.length = l.length := by
  induction l generalizing out with
  | nil => cases h; rfl
  | cons x xs ih =>
    rw [omap] at h
    cases hfx : f x with
    | none => rw [hfx] at h; exact absurd h (by simp)
    | some y =>
      cases ho : omap f xs with
      | none => rw [hfx, ho] at h; exact absurd h (by simp)
      | some ys =>
        rw [hfx, ho] at h
        cases h
        simp [ih ho]

theorem omap_getElem {α β : Type} {f : α → Option β} {l : List α} {out : List β}
    (h : omap f l = some out) {i : Nat} {x : α} (hx : l[i]? = some x) :
    out[i]? = f x := by
  induction l generalizing out i with
  | nil => simp at hx
  | cons z zs ih =>
    rw [omap] at h
    cases hfz : f z with
    | none => rw [hfz] at h; exact absurd h (by simp)
    | some y =>
      cases ho : omap f zs with
      | none => rw [hfz, ho] at h; exact absurd h (by simp)
      | some ys =>
        rw [hfz, ho] at h
        cases h
        cases i with
        | zero =>
          rw [List.getElem?_cons_zero, Option.some.injEq] at hx
          subst hx
          rw [List.getElem?_cons_zero, hfz]
        | succ i' =>
          rw [List.getElem?_cons_succ] at hx
          rw [List.getElem?_cons_succ]
          exact ih ho hx

theorem omap_mem {α β : Type} {f : α → Option β} {l : List α} {out : List β}
    (h : omap f l = some out) {y : β} (hy : y ∈ out) : ∃ x ∈ l, f x = some y := by
  induction l generalizing out with
  | nil => cases h; simp at hy
  | cons z zs ih =>
    rw [omap] at h
    cases hfz : f z with
    | none => rw [hfz] at h; exact absurd h (by simp)
    | some w =>
      cases ho : omap f zs with
      | none => rw [hfz, ho] at h; exact absurd h (by simp)
      | some ys =>
        rw [hfz, ho] at h
        cases h
        rcases List.mem_cons.mp hy with he | hm
        · exact ⟨z, List.mem_cons_self z zs, he ▸ hfz⟩
        · rcases ih ho hm with ⟨x, hxl, hfx⟩
          exact ⟨x, List.mem_cons_of_mem z hxl, hfx⟩

/-! ### Flattening and offsets -/

theorem offsetLen_zero {α : Type} (ls : List (List α)) : offsetLen ls 0 = 0 := rfl

theorem offsetLen_succ {α : Type} (hd : List α) (tl : List (List α)) (g : Nat) :
    offsetLen (hd :: tl) (g + 1) = hd.length + offsetLen tl g := by
  simp [offsetLen, List.take_succ_cons]

theorem flatten_getElem_offset {α : Type} {ls : List (List α)} {g p : Nat} {L : List α}
    (hg : ls[g]? = some L) (hp : p < L.length) :
    ls.flatten[offsetLen ls g + p]? = L[p]? := by
  induction ls generalizing g with
  | nil => simp at hg
  | cons hd tl ih =>
    cases g with
    | zero =>
      rw [List.getElem?_cons_zero, Option.some.injEq] at hg
      subst hg
      rw [offsetLen_zero, Nat.zero_add, List.flatten_cons, List.getElem?_append,
        if_pos hp]
    | succ g' =>
      rw [List.getElem?_cons_succ] at hg
      rw [offsetLen_succ, List.flatten_cons,
        List.getElem?_append_right (by omega)]
      have harith : hd.length + offsetLen tl g' + p - hd.length = offsetLen tl g' + p := by
        omega
      rw [harith]
      exact ih hg

theorem offsetLen_congr {α β : Type} {ls : List (List α)} {ms : List (List β)}
    (h : ms.map List.length = ls.map List.length) (g : Nat) :
    offsetLen ms g = offsetLen ls g := by
  unfold offsetLen
  rw [List.map_take, List.map_take, h]

theorem getD_getElem? {α : Type} {l : List α} {i : Nat} (h : i < l.length) (d : α) :
    l[i]? = some (l.getD i d) := by
  rw [List.getD_eq_getElem?_getD, List.getElem?_eq_getElem h]
  rfl

/-! ### Batch-partition lemmas -/

theorem mem_groupRows {codes : List Int} {v : Int} {i : Nat} :
    i ∈ groupRows codes v ↔ i < codes.length ∧ codes[i]? = some v := by
  unfold groupRows
  rw [List.mem_filter, List.mem_range]
  simp

theorem groupRows_nodup (codes : List Int) (v : Int) : (groupRows codes v).Nodup :=
  (List.nodup_range codes.length).filter _

theorem uniqueBatchCodes_nodup (codes : List Int) :
    (uniqueBatchCodes codes).Nodup :=
  ((sortLe_perm _ codes.dedup).nodup_iff).mpr (List.nodup_dedup codes)

theorem mem_uniqueBatchCodes {codes : List Int} {c : Int} :
    c ∈ uniqueBatchCodes codes ↔ c ∈ codes := by
  unfold uniqueBatchCodes
  rw [(sortLe_perm _ codes.dedup).mem_iff, List.mem_dedup]

theorem batchGroups_pairwise_disjoint (codes : List Int) :
    (batchGroups codes).Pairwise List.Disjoint := by
  unfold batchGroups
  rw [List.pairwise_map]
  refine List.Pairwise.imp ?_ (uniqueBatchCodes_nodup codes)
  intro v w hvw i hi hi2
  rw [mem_groupRows] at hi hi2
  exact hvw (Option.some.inj (hi.2.symm.trans hi2.2))

theorem batchGroups_flatten_nodup (codes : List Int) :
    (batchGroups codes).flatten.Nodup := by
  rw [List.nodup_flatten]
  constructor
  · intro L hL
    rcases List.mem_map.mp hL with ⟨v, _, rfl⟩
    exact groupRows_nodup codes v
  · exact batchGroups_pairwise_disjoint codes

theorem mem_batchGroups_flatten {codes : List Int} {i : Nat}
    (h : i ∈ (batchGroups codes).flatten) : i < codes.length := by
  rcases List.mem_flatten.mp h with ⟨L, hL, hiL⟩
  rcases List.mem_map.mp hL with ⟨v, _, rfl⟩
  exact (mem_groupRows.mp hiL).1

theorem groupNamesOf_flatten (names : List String) (codes : List Int) :
    (groupNamesOf names codes).flatten
      = (batchGroups codes).flatten.map (fun i => names.getD i "") := by
  unfold groupNamesOf rowsAt
  exact (List.map_flatten _ _).symm

theorem concatNames_nodup {names : List String} {codes : List Int}
    (hnd : names.Nodup) (hlen : codes.length = names.length) :
    (groupNamesOf names codes).flatten.Nodup := by
  rw [groupNamesOf_flatten]
  refine List.Nodup.map_on ?_ (batchGroups_flatten_nodup codes)
  intro i hi i' hi' hf
  have hi2 : i < names.length := hlen ▸ mem_batchGroups_flatten hi
  have hi'2 : i' < names.length := hlen ▸ mem_batchGroups_flatten hi'
  have e1 : names[i]? = some (names.getD i "") := getD_getElem? hi2 ""
  have e2 : names[i']? = some (names.getD i' "") := getD_getElem? hi'2 ""
  exact List.getElem?_inj hi2 hnd (e1.trans (hf ▸ e2.symm))

theorem groups_cover {codes : List Int} {j : Nat}
    (hj : j < codes.length) :
    ∃ (g p : Nat) (L : List Nat), (batchGroups codes)[g]? = some L ∧ L[p]? = some j := by
  have hc : codes[j]? = some codes[j] := List.getElem?_eq_getElem hj
  have hcu : codes[j] ∈ uniqueBatchCodes codes :=
    mem_uniqueBatchCodes.mpr (List.getElem?_mem hc)
  obtain ⟨g, hg⟩ := List.mem_iff_getElem?.mp hcu
  obtain ⟨p, hp⟩ := List.mem_iff_getElem?.mp (mem_groupRows.mpr ⟨hj, hc⟩)
  refine ⟨g, p, groupRows codes codes[j], ?_, hp⟩
  unfold batchGroups
  rw [List.getElem?_map, hg]
  rfl

theorem group_member_lt {codes : List Int} {g p j : Nat}
    {L : List Nat} (hg : (batchGroups codes)[g]? = some L)
    (hp : L[p]? = some j) : j < codes.length := by
  unfold batchGroups at hg
  rw [List.getElem?_map] at hg
  cases hv : (uniqueBatchCodes codes)[g]? with
  | none => rw [hv] at hg; simp at hg
  | some v =>
    rw [hv] at hg
    simp only [Option.map_some', Option.some.injEq] at hg
    subst hg
    exact (mem_groupRows.mp (List.getElem?_mem hp)).1

/-! ### The integration step -/

theorem compute_integration_spec (s : SCANORAMA)
    (integ : PDict → List (List String) → List Mat) (a : AnnData)
    {bcats : List String} {bcodes : List Int}
    (Hb : Assoc.find s.batch_key a.obs = some (Col.cat bcats bcodes))
    (Hlen : bcodes.length = a.obs_names.length)
    (Hnd : a.obs_names.Nodup)
    (Hshape : (integ s.method_dict (groupNamesOf a.obs_names bcodes)).map List.length
      = (groupNamesOf a.obs_names bcodes).map List.length) :
    ∃ m : Mat,
      s.compute_integration integ a
        = PyRes.ok { a with obsm := Assoc.set "X_scanorama" m a.obsm }
      ∧ m.length = a.obs_names.length
      ∧ ∀ (g p j : Nat) (L : List Nat), (batchGroups bcodes)[g]? = some L → L[p]? = some j →
          m[j]? = ((integ s.method_dict (groupNamesOf a.obs_names bcodes))[g]?).bind
            (fun mat => mat[p]?) := by
  set names := a.obs_names with hnames
  set gN := groupNamesOf names bcodes with hgN
  set mats := integ s.method_dict gN with hmats
  have key : ∀ (g p j : Nat) (L : List Nat), (batchGroups bcodes)[g]? = some L → L[p]? = some j →
      firstIdx (names.getD j "") gN.flatten = some (offsetLen gN g + p)
      ∧ mats.flatten[offsetLen gN g + p]? = (mats[g]?).bind (fun mat => mat[p]?)
      ∧ ((mats[g]?).bind (fun mat => mat[p]?)).isSome = true := by
    intro g p j L hg hp
    have hjlt : j < bcodes.length := group_member_lt hg hp
    have hplt : p < L.length := by
      rcases List.getElem?_eq_some_iff.mp hp with ⟨h, _⟩
      exact h
    have hgNg : gN[g]? = some (rowsAt names L) := by
      rw [hgN]
      unfold groupNamesOf
      rw [List.getElem?_map, hg]
      rfl
    have hname : (rowsAt names L)[p]? = some (names.getD j "") := by
      unfold rowsAt
      rw [List.getElem?_map, hp]
      rfl
    have hplt2 : p < (rowsAt names L).length := by
      unfold rowsAt
      rw [List.length_map]
      exact hplt
    have hcn : gN.flatten[offsetLen gN g + p]? = some (names.getD j "") :=
      (flatten_getElem_offset hgNg hplt2).trans hname
    have hfi : firstIdx (names.getD j "") gN.flatten = some (offsetLen gN g + p) :=
      firstIdx_eq_of_nodup (concatNames_nodup Hnd Hlen) hcn
    have hmatg : ∃ mat : List (List ℚ), mats[g]? = some mat ∧ mat.length = L.length := by
      have h1 : (mats.map List.length)[g]? = (gN.map List.length)[g]? := by rw [Hshape]
      rw [List.getElem?_map, List.getElem?_map, hgNg] at h1
      cases hmg : mats[g]? with
      | none => rw [hmg] at h1; simp at h1
      | some mat =>
        rw [hmg] at h1
        simp only [Option.map_some', Option.some.injEq] at h1
        refine ⟨mat, rfl, ?_⟩
        rw [h1]
        unfold rowsAt
        exact List.length_map _ _
    rcases hmatg with ⟨mat, hmg, hmlen⟩
    have hpltm : p < mat.length := hmlen ▸ hplt
    have hoff : offsetLen mats g = offsetLen gN g := offsetLen_congr Hshape g
    have hcr : mats.flatten[offsetLen gN g + p]? = mat[p]? := by
      rw [← hoff]
      exact flatten_getElem_offset hmg hpltm
    refine ⟨hfi, ?_, ?_⟩
    · rw [hcr, hmg]
      rfl
    · rw [hmg]
      show (mat[p]?).isSome = true
      rw [List.getElem?_eq_getElem hpltm]
      rfl
  have hsucc : (omap (fun nm => (firstIdx nm gN.flatten).bind
      (fun t => mats.flatten[t]?)) names).isSome = true := by
    refine omap_isSome ?_
    intro nm hnm
    obtain ⟨j, hj⟩ := List.mem_iff_getElem?.mp hnm
    have hjlt : j < names.length := by
      rcases List.getElem?_eq_some_iff.mp hj with ⟨h, _⟩
      exact h
    have hnm2 : nm = names.getD j "" := by
      have := (getD_getElem? hjlt "").symm.trans hj
      exact (Option.some.inj this).symm
    obtain ⟨g, p, L, hg, hp⟩ := groups_cover (Hlen ▸ hjlt)
    rcases key g p j L hg hp with ⟨hfi, hcr, hsome⟩
    rw [hnm2, hfi]
    show ((mats.flatten[offsetLen gN g + p]?)).isSome = true
    rw [hcr]
    exact hsome
  obtain ⟨m, hm⟩ := Option.isSome_iff_exists.mp hsucc
  refine ⟨m, ?_, ?_, ?_⟩
  · show SCANORAMA.compute_integration s integ a = _
    unfold SCANORAMA.compute_integration
    rw [Hb]
    show (match reindexRows names gN.flatten mats.flatten with
      | none => PyRes.err "KeyError: observation names" a
      | some m => PyRes.ok { a with obsm := Assoc.set "X_scanorama" m a.obsm }) = _
    unfold reindexRows
    rw [hm]
  · rw [omap_length hm]
  · intro g p j L hg hp
    have hjlt : j < names.length := Hlen ▸ group_member_lt hg hp
    have hj : names[j]? = some (names.getD j "") := getD_getElem? hjlt ""
    have := omap_getElem hm hj
    rw [this]
    rcases key g p j L hg hp with ⟨hfi, hcr, _⟩
    rw [hfi]
    exact hcr

/-! ### Classifier lemmas -/

theorem argmaxList_isSome {f : Int → ℚ} {cs : List Int} (h : cs ≠ []) :
    (argmaxList f cs).isSome = true := by
  cases cs with
  | nil => exact absurd rfl h
  | cons c cs' =>
    rw [argmaxList]
    cases argmaxList f cs' with
    | none => rfl
    | some d =>
      show (if f c < f d then some d else some c).isSome = true
      split <;> rfl

theorem argmaxList_mem {f : Int → ℚ} {cs : List Int} {c : Int}
    (h : argmaxList f cs = some c) : c ∈ cs := by
  induction cs generalizing c with
  | nil => simp [argmaxList] at h
  | cons d ds ih =>
    rw [argmaxList] at h
    cases hm : argmaxList f ds with
    | none =>
      rw [hm] at h
      cases h
      exact List.mem_cons_self _ _
    | some e =>
      rw [hm] at h
      have h2 : (if f d < f e then some e else some d) = some c := h
      by_cases hlt : f d < f e
      · rw [if_pos hlt] at h2
        cases h2
        exact List.mem_cons_of_mem _ (ih hm)
      · rw [if_neg hlt] at h2
        cases h2
        exact List.mem_cons_self _ _

theorem mem_classesOf {trainY : List Int} {c : Int} :
    c ∈ classesOf trainY ↔ c ∈ trainY := by
  unfold classesOf
  rw [(sortLe_perm _ trainY.dedup).mem_iff, List.mem_dedup]

theorem classesOf_ne_nil {trainY : List Int} (h : trainY ≠ []) : classesOf trainY ≠ [] := by
  intro hc
  obtain ⟨y, hy⟩ : ∃ y, y ∈ trainY := by
    cases trainY with
    | nil => exact absurd rfl h
    | cons a l => exact ⟨a, List.mem_cons_self a l⟩
  have hy2 : y ∈ classesOf trainY := mem_classesOf.mpr hy
  rw [hc] at hy2
  simp at hy2

theorem kNearestAux_length_le (dist : Nat → ℚ) (k : Nat) (rem : List Nat) :
    (kNearestAux dist k rem).length ≤ k := by
  induction k generalizing rem with
  | zero => simp [kNearestAux]
  | succ k' ih =>
    rw [kNearestAux]
    cases argminList dist rem with
    | none => exact Nat.zero_le _
    | some j => simpa using Nat.succ_le_succ (ih (rem.erase j))

theorem kNearest_length_le (k : Nat) (trainX : Mat) (q : List ℚ) :
    (kNearest k trainX q).length ≤ k := by
  unfold kNearest
  exact kNearestAux_length_le _ _ _

theorem classProb_nonneg (k : Nat) (trainY : List Int) (neigh : List Nat) (c : Int) :
    0 ≤ classProb k trainY neigh c := by
  unfold classProb
  exact div_nonneg (Nat.cast_nonneg _) (Nat.cast_nonneg _)

theorem classProb_le_one {k : Nat} (hk : 1 ≤ k) (trainY : List Int) {neigh : List Nat}
    (hlen : neigh.length ≤ k) (c : Int) : classProb k trainY neigh c ≤ 1 := by
  unfold classProb
  rw [div_le_one (by exact_mod_cast hk)]
  exact_mod_cast (List.countP_le_length _).trans hlen

theorem foldl_max_mem (x : ℚ) (xs : List ℚ) : xs.foldl max x ∈ x :: xs := by
  induction xs generalizing x with
  | nil => exact List.mem_cons_self _ _
  | cons y ys ih =>
    rw [List.foldl_cons]
    rcases List.mem_cons.mp (ih (max x y)) with h | h
    · rw [h]
      rcases max_choice x y with hm | hm <;> rw [hm]
      · exact List.mem_cons_self _ _
      · exact List.mem_cons_of_mem _ (List.mem_cons_self _ _)
    · exact List.mem_cons_of_mem _ (List.mem_cons_of_mem _ h)

theorem listMax_mem {l : List ℚ} {m : ℚ} (h : listMax l = some m) : m ∈ l := by
  cases l with
  | nil => simp [listMax] at h
  | cons x xs =>
    rw [listMax] at h
    exact (Option.some.inj h) ▸ foldl_max_mem x xs

theorem listMax_isSome {l : List ℚ} (h : l ≠ []) : (listMax l).isSome = true := by
  cases l with
  | nil => exact absurd rfl h
  | cons x xs => rfl

theorem knnProbaMax_isSome {k : Nat} {trainX : Mat} {trainY : List Int}
    (h : trainY ≠ []) (q : List ℚ) : (knnProbaMax k trainX trainY q).isSome = true := by
  unfold knnProbaMax probaRow
  apply listMax_isSome
  intro hc
  rw [List.map_eq_nil_iff] at hc
  exact classesOf_ne_nil h hc

theorem knnProbaMax_bounds {k : Nat} {trainX : Mat} {trainY : List Int} {q : List ℚ}
    {p : ℚ} (hk : 1 ≤ k) (h : knnProbaMax k trainX trainY q = some p) :
    0 ≤ p ∧ p ≤ 1 := by
  have hm : p ∈ probaRow k trainX trainY q := listMax_mem h
  unfold probaRow at hm
  rcases List.mem_map.mp hm with ⟨c, _, rfl⟩
  exact ⟨classProb_nonneg _ _ _ _,
    classProb_le_one hk _ (kNearest_length_le _ _ _) _⟩

theorem knnPredictOne_isSome {k : Nat} {trainX : Mat} {trainY : List Int}
    (h : trainY ≠ []) (q : List ℚ) : (knnPredictOne k trainX trainY q).isSome = true := by
  unfold knnPredictOne
  exact argmaxList_isSome (classesOf_ne_nil h)

theorem knnPredictOne_mem {k : Nat} {trainX : Mat} {trainY : List Int} {q : List ℚ}
    {c : Int} (h : knnPredictOne k trainX trainY q = some c) : c ∈ trainY :=
  mem_classesOf.mp (argmaxList_mem h)

theorem pyIndex_mem {α : Type} {l : List α} {c : Int} {v : α}
    (h : pyIndex l c = some v) : v ∈ l := by
  unfold pyIndex at h
  by_cases h1 : 0 ≤ c
  · rw [if_pos h1] at h
    exact List.getElem?_mem h
  · rw [if_neg h1] at h
    by_cases h2 : (l.length : Int) + c < 0
    · rw [if_pos h2] at h
      cases h
    · rw [if_neg h2] at h
      exact List.getElem?_mem h

theorem pyIndex_isSome_of_valid {α : Type} {l : List α} {c : Int}
    (h0 : 0 ≤ c) (hlt : c.toNat < l.length) : (pyIndex l c).isSome = true := by
  unfold pyIndex
  rw [if_pos h0, List.getElem?_eq_getElem hlt]
  rfl

theorem mem_selectCodes {codes : List Int} {idxs : List Nat} {c : Int}
    (h : c ∈ selectCodes codes idxs) : ∃ i ∈ idxs, codes.getD i 0 = c := by
  unfold selectCodes at h
  rcases List.mem_map.mp h with ⟨i, hi, rfl⟩
  exact ⟨i, hi, rfl⟩

theorem selectCodes_length (codes : List Int) (idxs : List Nat) :
    (selectCodes codes idxs).length = idxs.length := List.length_map _ _

theorem selectRows_length (m : Mat) (idxs : List Nat) :
    (selectRows m idxs).length = idxs.length := List.length_map _ _

/-! ### The prediction step -/

theorem predict_values_spec {rep : Mat} {cats : List String} {lcodes : List Int}
    {k : Nat} (mask : List Bool) (Hk1 : 1 ≤ k) (Hkle : k ≤ (maskIdx mask).length)
    (Hvalid : ∀ i ∈ maskIdx mask, i < lcodes.length ∧ 0 ≤ lcodes.getD i 0
      ∧ (lcodes.getD i 0).toNat < cats.length) :
    ∃ (pcodes : List Int) (vals : List String),
      omap (knnPredictOne k (selectRows rep (maskIdx mask))
        (selectCodes lcodes (maskIdx mask))) rep = some pcodes
      ∧ omap (pyIndex cats) pcodes = some vals
      ∧ vals.length = rep.length ∧ ∀ v ∈ vals, v ∈ cats := by
  set trainX := selectRows rep (maskIdx mask) with htX
  set trainY := selectCodes lcodes (maskIdx mask) with htY
  have hTYne : trainY ≠ [] := by
    apply List.ne_nil_of_length_pos
    rw [htY, selectCodes_length]
    omega
  have hpc : (omap (knnPredictOne k trainX trainY) rep).isSome = true :=
    omap_isSome (fun q _ => knnPredictOne_isSome hTYne q)
  obtain ⟨pcodes, hpc⟩ := Option.isSome_iff_exists.mp hpc
  have hvsome : (omap (pyIndex cats) pcodes).isSome = true := by
    refine omap_isSome ?_
    intro c hc
    rcases omap_mem hpc hc with ⟨q, _, hq⟩
    rcases mem_selectCodes (htY ▸ knnPredictOne_mem hq) with ⟨i, hi, hcode⟩
    rcases Hvalid i hi with ⟨_, h0, hlt⟩
    exact pyIndex_isSome_of_valid (hcode ▸ h0) (hcode ▸ hlt)
  obtain ⟨vals, hv⟩ := Option.isSome_iff_exists.mp hvsome
  refine ⟨pcodes, vals, hpc, hv, ?_, ?_⟩
  · rw [omap_length hv, omap_length hpc]
  · intro v hvm
    rcases omap_mem hv hvm with ⟨c, _, hc⟩
    exact pyIndex_mem hc

theorem predict_proba_spec {rep : Mat} {lcodes : List Int} {k : Nat}
    (mask : List Bool) (Hk1 : 1 ≤ k) (Hkle : k ≤ (maskIdx mask).length) :
    ∃ ps : List ℚ,
      omap (knnProbaMax k (selectRows rep (maskIdx mask))
        (selectCodes lcodes (maskIdx mask))) rep = some ps
      ∧ ps.length = rep.length ∧ ∀ p ∈ ps, 0 ≤ p ∧ p ≤ 1 := by
  set trainY := selectCodes lcodes (maskIdx mask) with htY
  have hTYne : trainY ≠ [] := by
    apply List.ne_nil_of_length_pos
    rw [htY, selectCodes_length]
    omega
  have hsome : (omap (knnProbaMax k (selectRows rep (maskIdx mask)) trainY) rep).isSome
      = true := omap_isSome (fun q _ => knnProbaMax_isSome hTYne q)
  obtain ⟨ps, hps⟩ := Option.isSome_iff_exists.mp hsome
  refine ⟨ps, hps, omap_length hps, ?_⟩
  intro p hp
  rcases omap_mem hps hp with ⟨q, _, hq⟩
  exact knnProbaMax_bounds Hk1 hq

theorem predict_ctrl (s : SCANORAMA) (a : AnnData) (rk : String)
    {mask : List Bool} {rep : Mat} {cats : List String} {lcodes : List Int} {k : Nat}
    (Hmask : Assoc.find "_labelled_train_indices" a.obs = some (Col.bool mask))
    (Hmlen : mask.length = a.obs_names.length)
    (Hrep : Assoc.find "X_scanorama" a.obsm = some rep)
    (Hlab : Assoc.find s.labels_key a.obs = some (Col.cat cats lcodes))
    (Hk : PDict.lookup "n_neighbors" s.classifier_dict = some (PValue.nat k))
    (Hw : PDict.lookup "weights" s.classifier_dict = some (PValue.str "uniform"))
    (Hk1 : 1 ≤ k) (Hkle : k ≤ (maskIdx mask).length)
    {pcodes : List Int} {vals : List String}
    (hpc : omap (knnPredictOne k (selectRows rep (maskIdx mask))
      (selectCodes lcodes (maskIdx mask))) rep = some pcodes)
    (hv : omap (pyIndex cats) pcodes = some vals) :
    SCANORAMA.predict s a rk =
      (match Assoc.find "_return_probabilities" a.uns with
       | none => PyRes.err "KeyError: _return_probabilities"
           { a with obs := Assoc.set s.result_key (Col.strs vals) a.obs }
       | some v =>
         if UnsVal.truthy v then
           match omap (knnProbaMax k (selectRows rep (maskIdx mask))
               (selectCodes lcodes (maskIdx mask))) rep with
           | none => PyRes.err "ValueError: empty training data"
               { a with obs := Assoc.set s.result_key (Col.strs vals) a.obs }
           | some ps => PyRes.ok { a with
               obs := (Assoc.set (s.result_key ++ "_probabilities") (Col.num ps)
                 (Assoc.set s.result_key (Col.strs vals) a.obs)) }
         else PyRes.ok { a with obs := Assoc.set s.result_key (Col.strs vals) a.obs }) := by
  have hcond : 1 ≤ k ∧ k ≤ (selectRows rep (maskIdx mask)).length := by
    rw [selectRows_length]
    exact ⟨Hk1, Hkle⟩
  simp only [SCANORAMA.predict, Hmask]
  rw [if_pos Hmlen]
  simp only [Hrep, Hlab, Hk, Hw]
  rw [if_pos hcond]
  simp only [hpc, hv]

theorem result_key_ne_proba_key (s : String) : s ≠ s ++ "_probabilities" := by
  intro h
  have hlen := congrArg String.length h
  rw [String.length_append] at hlen
  have h14 : ("_probabilities" : String).length = 14 := by decide
  rw [h14] at hlen
  omega

/-! ### Claims about the constructor and the embedding step -/

/-- C6: for every constructor call, each of the three parameter
dictionaries looks up as the hard-coded defaults overridden by the
caller-supplied dictionary, caller values taking precedence on key
collision; and the defaulted `batch_key` and `labels_key` are
`"_batch_annotation"` and `"_labels_annotation"`. -/
theorem scanorama_init_defaults_and_override_precedence
    (bk lk rk ek : String) (md cd ed : PDict)
    (hmd : (md.map Prod.fst).Nodup) (hcd : (cd.map Prod.fst).Nodup)
    (hed : (ed.map Prod.fst).Nodup) :
    (∀ key, PDict.lookup key (SCANORAMA.init bk lk rk ek md cd ed).method_dict
        = oElse (PDict.lookup key md) (PDict.lookup key [("dimred", PValue.nat 50)]))
    ∧ (∀ key, PDict.lookup key (SCANORAMA.init bk lk rk ek md cd ed).classifier_dict
        = oElse (PDict.lookup key cd) (PDict.lookup key
            [("weights", PValue.str "uniform"), ("n_neighbors", PValue.nat 15)]))
    ∧ (∀ key, PDict.lookup key (SCANORAMA.init bk lk rk ek md cd ed).embedding_dict
        = oElse (PDict.lookup key ed) (PDict.lookup key [("min_dist", PValue.rat (1 / 10))]))
    ∧ SCANORAMA.init.batch_key = "_batch_annotation"
    ∧ SCANORAMA.init.labels_key = "_labels_annotation" := by
  refine ⟨fun key => ?_, fun key => ?_, fun key => ?_, rfl, rfl⟩
  · show PDict.lookup key (PDict.update [("dimred", PValue.nat 50)] md) = _
    rw [PDict.lookup_update, PDict.lookupLast_eq_lookup hmd]
  · show PDict.lookup key (PDict.update
      [("weights", PValue.str "uniform"), ("n_neighbors", PValue.nat 15)] cd) = _
    rw [PDict.lookup_update, PDict.lookupLast_eq_lookup hcd]
  · show PDict.lookup key (PDict.update [("min_dist", PValue.rat (1 / 10))] ed) = _
    rw [PDict.lookup_update, PDict.lookupLast_eq_lookup hed]

theorem scanorama_init_defaults_and_override_precedence_witness :
    ((([("dimred", PValue.nat 7)] : PDict).map Prod.fst).Nodup
      ∧ (([("n_neighbors", PValue.nat 1)] : PDict).map Prod.fst).Nodup
      ∧ (([] : PDict).map Prod.fst).Nodup)
    ∧ ((∀ key, PDict.lookup key (SCANORAMA.init "b" "l" "r" "e"
          [("dimred", PValue.nat 7)] [("n_neighbors", PValue.nat 1)] []).method_dict
        = oElse (PDict.lookup key [("dimred", PValue.nat 7)])
            (PDict.lookup key [("dimred", PValue.nat 50)]))
      ∧ (∀ key, PDict.lookup key (SCANORAMA.init "b" "l" "r" "e"
          [("dimred", PValue.nat 7)] [("n_neighbors", PValue.nat 1)] []).classifier_dict
        = oElse (PDict.lookup key [("n_neighbors", PValue.nat 1)]) (PDict.lookup key
            [("weights", PValue.str "uniform"), ("n_neighbors", PValue.nat 15)]))
      ∧ (∀ key, PDict.lookup key (SCANORAMA.init "b" "l" "r" "e"
          [("dimred", PValue.nat 7)] [("n_neighbors", PValue.nat 1)] []).embedding_dict
        = oElse (PDict.lookup key ([] : PDict))
            (PDict.lookup key [("min_dist", PValue.rat (1 / 10))]))
      ∧ SCANORAMA.init.batch_key = "_batch_annotation"
      ∧ SCANORAMA.init.labels_key = "_labels_annotation") :=
  ⟨⟨by decide, by decide, by decide⟩,
    scanorama_init_defaults_and_override_precedence "b" "l" "r" "e"
      [("dimred", PValue.nat 7)] [("n_neighbors", PValue.nat 1)] []
      (by decide) (by decide) (by decide)⟩

/-- C5: when the container's global flag `"_compute_embedding"` is present
and false, `compute_embedding` returns normally with the container exactly
unchanged: no representation entry is added or modified and no exception
is raised. -/
theorem scanorama_compute_embedding_noop_when_flag_false (s : SCANORAMA) (a : AnnData)
    (Hf : Assoc.find "_compute_embedding" a.uns = some (UnsVal.bool false)) :
    SCANORAMA.compute_embedding s a = PyRes.ok a := by
  simp [SCANORAMA.compute_embedding, Hf, UnsVal.truthy]

theorem scanorama_compute_embedding_noop_when_flag_false_witness :
    (Assoc.find "_compute_embedding" (exEmbA false).uns = some (UnsVal.bool false))
    ∧ SCANORAMA.compute_embedding exS (exEmbA false) = PyRes.ok (exEmbA false) :=
  ⟨by decide,
    scanorama_compute_embedding_noop_when_flag_false exS (exEmbA false) (by decide)⟩

/-- C10: when the global flag `"_compute_embedding"` is truthy,
`compute_embedding` mutates the container beyond the embedding entry: the
neighbor-search call overwrites the shared neighbor-graph state — the
`"neighbors"` metadata in `uns` and the `"distances"` and
`"connectivities"` entries in `obsp` — before the embedding is stored
under `embedding_key`. -/
theorem scanorama_compute_embedding_overwrites_neighbor_graph (s : SCANORAMA)
    (a : AnnData) {v : UnsVal} {rep : Mat}
    (Hf : Assoc.find "_compute_embedding" a.uns = some v)
    (Ht : UnsVal.truthy v = true)
    (Hrep : Assoc.find "X_scanorama" a.obsm = some rep) :
    ∃ a', SCANORAMA.compute_embedding s a = PyRes.ok a'
      ∧ Assoc.find "neighbors" a'.uns = some (UnsVal.neighborsMeta "umap")
      ∧ Assoc.find "distances" a'.obsp = some (pairwiseDist rep)
      ∧ Assoc.find "connectivities" a'.obsp = some (pairwiseDist rep)
      ∧ Assoc.find s.embedding_key a'.obsm
          = some ((pairwiseDist rep).map (fun r => r.take 2)) := by
  have hnb : scppNeighbors a "X_scanorama" "umap" = PyRes.ok { a with
      uns := Assoc.set "neighbors" (UnsVal.neighborsMeta "umap") a.uns
      obsp := Assoc.set "distances" (pairwiseDist rep)
        (Assoc.set "connectivities" (pairwiseDist rep) a.obsp) } := by
    simp only [scppNeighbors, Hrep]
  have hdist : Assoc.find "distances" (Assoc.set "distances" (pairwiseDist rep)
      (Assoc.set "connectivities" (pairwiseDist rep) a.obsp)) = some (pairwiseDist rep) :=
    Assoc.find_set_self _ _ _
  have hum : scTlUmapX { a with
      uns := Assoc.set "neighbors" (UnsVal.neighborsMeta "umap") a.uns
      obsp := Assoc.set "distances" (pairwiseDist rep)
        (Assoc.set "connectivities" (pairwiseDist rep) a.obsp) }
      = some ((pairwiseDist rep).map (fun r => r.take 2)) := by
    unfold scTlUmapX
    rw [show Assoc.find "distances" ({ a with
      uns := Assoc.set "neighbors" (UnsVal.neighborsMeta "umap") a.uns
      obsp := Assoc.set "distances" (pairwiseDist rep)
        (Assoc.set "connectivities" (pairwiseDist rep) a.obsp) } : AnnData).obsp
      = some (pairwiseDist rep) from hdist]
    rfl
  refine ⟨{ a with
      uns := Assoc.set "neighbors" (UnsVal.neighborsMeta "umap") a.uns
      obsp := Assoc.set "distances" (pairwiseDist rep)
        (Assoc.set "connectivities" (pairwiseDist rep) a.obsp)
      obsm := Assoc.set s.embedding_key ((pairwiseDist rep).map (fun r => r.take 2))
        a.obsm }, ?_, ?_, ?_, ?_, ?_⟩
  · show SCANORAMA.compute_embedding s a = _
    simp only [SCANORAMA.compute_embedding, Hf]
    rw [if_pos Ht]
    simp only [hnb, hum]
  · exact Assoc.find_set_self _ _ _
  · exact hdist
  · rw [Assoc.find_set_ne _ _ (by decide)]
    exact Assoc.find_set_self _ _ _
  · exact Assoc.find_set_self _ _ _

theorem scanorama_compute_embedding_overwrites_neighbor_graph_witness :
    (Assoc.find "_compute_embedding" (exEmbA true).uns = some (UnsVal.bool true)
      ∧ UnsVal.truthy (UnsVal.bool true) = true
      ∧ Assoc.find "X_scanorama" (exEmbA true).obsm = some [[0], [1]])
    ∧ ∃ a', SCANORAMA.compute_embedding exS (exEmbA true) = PyRes.ok a'
      ∧ Assoc.find "neighbors" a'.uns = some (UnsVal.neighborsMeta "umap")
      ∧ Assoc.find "distances" a'.obsp = some (pairwiseDist [[0], [1]])
      ∧ Assoc.find "connectivities" a'.obsp = some (pairwiseDist [[0], [1]])
      ∧ Assoc.find exS.embedding_key a'.obsm
          = some ((pairwiseDist [[0], [1]]).map (fun r => r.take 2)) :=
  ⟨⟨by decide, by decide, by decide⟩,
    @scanorama_compute_embedding_overwrites_neighbor_graph exS (exEmbA true)
      (UnsVal.bool true) [[0], [1]] (by decide) (by decide) (by decide)⟩

/-! ### Claims about the integration step -/

/-- C2: on a container whose batch column exists and is fully populated,
`compute_integration` stores a representation with one row per
observation, in the container's original observation order: row `j` is
exactly the row the integration routine produced for observation `j` (the
`p`-th row of group `g`'s output whenever observation `j` is the `p`-th
member of batch group `g`). -/
theorem scanorama_compute_integration_row_alignment (s : SCANORAMA)
    (integ : PDict → List (List String) → List Mat) (a : AnnData)
    {bcats : List String} {bcodes : List Int}
    (Hb : Assoc.find s.batch_key a.obs = some (Col.cat bcats bcodes))
    (Hpop : ∀ c ∈ bcodes, 0 ≤ c)
    (Hlen : bcodes.length = a.obs_names.length)
    (Hnd : a.obs_names.Nodup)
    (Hshape : (integ s.method_dict (groupNamesOf a.obs_names bcodes)).map List.length
      = (groupNamesOf a.obs_names bcodes).map List.length) :
    ∃ (a' : AnnData) (m : Mat),
      s.compute_integration integ a = PyRes.ok a'
      ∧ Assoc.find "X_scanorama" a'.obsm = some m
      ∧ m.length = a.obs_names.length
      ∧ ∀ (g p j : Nat) (L : List Nat),
          (batchGroups bcodes)[g]? = some L → L[p]? = some j →
          m[j]? = ((integ s.method_dict (groupNamesOf a.obs_names bcodes))[g]?).bind
            (fun mat => mat[p]?) := by
  obtain ⟨m, hok, hlen, halign⟩ := compute_integration_spec s integ a Hb Hlen Hnd Hshape
  exact ⟨_, m, hok, Assoc.find_set_self _ _ _, hlen, halign⟩

theorem scanorama_compute_integration_row_alignment_witness :
    (Assoc.find exS.batch_key exIntegA.obs = some (Col.cat ["b0", "b1"] [0, 1, 0])
      ∧ (∀ c ∈ ([0, 1, 0] : List Int), 0 ≤ c)
      ∧ ([0, 1, 0] : List Int).length = exIntegA.obs_names.length
      ∧ exIntegA.obs_names.Nodup
      ∧ (exInteg exS.method_dict (groupNamesOf exIntegA.obs_names [0, 1, 0])).map
          List.length = (groupNamesOf exIntegA.obs_names [0, 1, 0]).map List.length)
    ∧ ∃ (a' : AnnData) (m : Mat),
      exS.compute_integration exInteg exIntegA = PyRes.ok a'
      ∧ Assoc.find "X_scanorama" a'.obsm = some m
      ∧ m.length = exIntegA.obs_names.length
      ∧ ∀ (g p j : Nat) (L : List Nat),
          (batchGroups [0, 1, 0])[g]? = some L → L[p]? = some j →
          m[j]? = ((exInteg exS.method_dict (groupNamesOf exIntegA.obs_names [0, 1, 0]))[g]?).bind
            (fun mat => mat[p]?) :=
  ⟨⟨by decide, by decide, by decide, by decide, by decide⟩,
    @scanorama_compute_integration_row_alignment exS exInteg exIntegA
      ["b0", "b1"] [0, 1, 0] (by decide) (by decide) (by decide) (by decide) (by decide)⟩

/-- C8: on a container whose batch column exists and is fully populated
and which has no `"X_scanorama"` entry yet, `compute_integration` appends
exactly one new representation entry named `"X_scanorama"` and leaves the
observation columns, the feature matrix, every pre-existing representation
entry and all other container fields unchanged. -/
theorem scanorama_compute_integration_frame (s : SCANORAMA)
    (integ : PDict → List (List String) → List Mat) (a : AnnData)
    {bcats : List String} {bcodes : List Int}
    (Hb : Assoc.find s.batch_key a.obs = some (Col.cat bcats bcodes))
    (Hpop : ∀ c ∈ bcodes, 0 ≤ c)
    (Hlen : bcodes.length = a.obs_names.length)
    (Hnd : a.obs_names.Nodup)
    (Hshape : (integ s.method_dict (groupNamesOf a.obs_names bcodes)).map List.length
      = (groupNamesOf a.obs_names bcodes).map List.length)
    (Hfresh : Assoc.find "X_scanorama" a.obsm = none) :
    ∃ (a' : AnnData) (m : Mat),
      s.compute_integration integ a = PyRes.ok a'
      ∧ a'.obs = a.obs ∧ a'.X = a.X ∧ a'.uns = a.uns ∧ a'.obsp = a.obsp
      ∧ a'.obs_names = a.obs_names
      ∧ a'.obsm = a.obsm ++ [("X_scanorama", m)]
      ∧ (∀ key, key ≠ "X_scanorama" → Assoc.find key a'.obsm = Assoc.find key a.obsm)
      ∧ Assoc.find "X_scanorama" a'.obsm = some m := by
  obtain ⟨m, hok, _, _⟩ := compute_integration_spec s integ a Hb Hlen Hnd Hshape
  refine ⟨_, m, hok, rfl, rfl, rfl, rfl, rfl, ?_, ?_, Assoc.find_set_self _ _ _⟩
  · show Assoc.set "X_scanorama" m a.obsm = _
    exact Assoc.set_of_find_none m Hfresh
  · intro key hk
    exact Assoc.find_set_ne m a.obsm (Ne.symm hk)

theorem scanorama_compute_integration_frame_witness :
    (Assoc.find exS.batch_key exIntegA.obs = some (Col.cat ["b0", "b1"] [0, 1, 0])
      ∧ (∀ c ∈ ([0, 1, 0] : List Int), 0 ≤ c)
      ∧ ([0, 1, 0] : List Int).length = exIntegA.obs_names.length
      ∧ exIntegA.obs_names.Nodup
      ∧ (exInteg exS.method_dict (groupNamesOf exIntegA.obs_names [0, 1, 0])).map
          List.length = (groupNamesOf exIntegA.obs_names [0, 1, 0]).map List.length
      ∧ Assoc.find "X_scanorama" exIntegA.obsm = none)
    ∧ ∃ (a' : AnnData) (m : Mat),
      exS.compute_integration exInteg exIntegA = PyRes.ok a'
      ∧ a'.obs = exIntegA.obs ∧ a'.X = exIntegA.X ∧ a'.uns = exIntegA.uns
      ∧ a'.obsp = exIntegA.obsp
      ∧ a'.obs_names = exIntegA.obs_names
      ∧ a'.obsm = exIntegA.obsm ++ [("X_scanorama", m)]
      ∧ (∀ key, key ≠ "X_scanorama" →
          Assoc.find key a'.obsm = Assoc.find key exIntegA.obsm)
      ∧ Assoc.find "X_scanorama" a'.obsm = some m :=
  ⟨⟨by decide, by decide, by decide, by decide, by decide, by decide⟩,
    @scanorama_compute_integration_frame exS exInteg exIntegA
      ["b0", "b1"] [0, 1, 0] (by decide) (by decide) (by decide) (by decide) (by decide)
      (by decide)⟩

/-! ### Claims about the prediction step -/

theorem predict_ctrl_none (s : SCANORAMA) (a : AnnData) (rk : String)
    {mask : List Bool} {rep : Mat} {cats : List String} {lcodes : List Int} {k : Nat}
    (Hmask : Assoc.find "_labelled_train_indices" a.obs = some (Col.bool mask))
    (Hmlen : mask.length = a.obs_names.length)
    (Hrep : Assoc.find "X_scanorama" a.obsm = some rep)
    (Hlab : Assoc.find s.labels_key a.obs = some (Col.cat cats lcodes))
    (Hk : PDict.lookup "n_neighbors" s.classifier_dict = some (PValue.nat k))
    (Hw : PDict.lookup "weights" s.classifier_dict = some (PValue.str "uniform"))
    (Hk1 : 1 ≤ k) (Hkle : k ≤ (maskIdx mask).length)
    {pcodes : List Int} {vals : List String}
    (hpc : omap (knnPredictOne k (selectRows rep (maskIdx mask))
      (selectCodes lcodes (maskIdx mask))) rep = some pcodes)
    (hv : omap (pyIndex cats) pcodes = some vals)
    (Huns : Assoc.find "_return_probabilities" a.uns = none) :
    SCANORAMA.predict s a rk = PyRes.err "KeyError: _return_probabilities"
      { a with obs := Assoc.set s.result_key (Col.strs vals) a.obs } := by
  have h := predict_ctrl s a rk Hmask Hmlen Hrep Hlab Hk Hw Hk1 Hkle hpc hv
  rw [Huns] at h
  exact h

theorem predict_ctrl_some (s : SCANORAMA) (a : AnnData) (rk : String)
    {mask : List Bool} {rep : Mat} {cats : List String} {lcodes : List Int} {k : Nat}
    {v : UnsVal}
    (Hmask : Assoc.find "_labelled_train_indices" a.obs = some (Col.bool mask))
    (Hmlen : mask.length = a.obs_names.length)
    (Hrep : Assoc.find "X_scanorama" a.obsm = some rep)
    (Hlab : Assoc.find s.labels_key a.obs = some (Col.cat cats lcodes))
    (Hk : PDict.lookup "n_neighbors" s.classifier_dict = some (PValue.nat k))
    (Hw : PDict.lookup "weights" s.classifier_dict = some (PValue.str "uniform"))
    (Hk1 : 1 ≤ k) (Hkle : k ≤ (maskIdx mask).length)
    {pcodes : List Int} {vals : List String}
    (hpc : omap (knnPredictOne k (selectRows rep (maskIdx mask))
      (selectCodes lcodes (maskIdx mask))) rep = some pcodes)
    (hv : omap (pyIndex cats) pcodes = some vals)
    (Huns : Assoc.find "_return_probabilities" a.uns = some v) :
    SCANORAMA.predict s a rk =
      if UnsVal.truthy v = true then
        match omap (knnProbaMax k (selectRows rep (maskIdx mask))
            (selectCodes lcodes (maskIdx mask))) rep with
        | none => PyRes.err "ValueError: empty training data"
            { a with obs := Assoc.set s.result_key (Col.strs vals) a.obs }
        | some ps => PyRes.ok { a with
            obs := (Assoc.set (s.result_key ++ "_probabilities") (Col.num ps)
              (Assoc.set s.result_key (Col.strs vals) a.obs)) }
      else PyRes.ok { a with obs := Assoc.set s.result_key (Col.strs vals) a.obs } := by
  have h := predict_ctrl s a rk Hmask Hmlen Hrep Hlab Hk Hw Hk1 Hkle hpc hv
  rw [Huns] at h
  exact h

/-- C9: on a container that satisfies every precondition of `predict`
except that the global flag `"_return_probabilities"` is absent, `predict`
raises a lookup error, but only after the predicted-label result column
has already been written: the state carried by the error differs from the
input exactly in the result column, so the caller observes a partially
mutated container. -/
theorem scanorama_predict_partial_mutation_on_missing_flag (s : SCANORAMA)
    (a : AnnData) (rk : String)
    {mask : List Bool} {rep : Mat} {cats : List String} {lcodes : List Int} {k : Nat}
    (Hmask : Assoc.find "_labelled_train_indices" a.obs = some (Col.bool mask))
    (Hmlen : mask.length = a.obs_names.length)
    (Hrep : Assoc.find "X_scanorama" a.obsm = some rep)
    (Hlab : Assoc.find s.labels_key a.obs = some (Col.cat cats lcodes))
    (Hk : PDict.lookup "n_neighbors" s.classifier_dict = some (PValue.nat k))
    (Hw : PDict.lookup "weights" s.classifier_dict = some (PValue.str "uniform"))
    (Hk1 : 1 ≤ k) (Hkle : k ≤ (maskIdx mask).length)
    (Hvalid : ∀ i ∈ maskIdx mask, i < lcodes.length ∧ 0 ≤ lcodes.getD i 0
      ∧ (lcodes.getD i 0).toNat < cats.length)
    (Huns : Assoc.find "_return_probabilities" a.uns = none) :
    ∃ (a1 : AnnData) (vals : List String),
      SCANORAMA.predict s a rk = PyRes.err "KeyError: _return_probabilities" a1
      ∧ Assoc.find s.result_key a1.obs = some (Col.strs vals)
      ∧ vals.length = rep.length
      ∧ (∀ key, key ≠ s.result_key → Assoc.find key a1.obs = Assoc.find key a.obs) := by
  obtain ⟨pcodes, vals, hpc, hv, hvl, hvm⟩ := predict_values_spec mask Hk1 Hkle Hvalid
  refine ⟨_, vals,
    predict_ctrl_none s a rk Hmask Hmlen Hrep Hlab Hk Hw Hk1 Hkle hpc hv Huns,
    Assoc.find_set_self _ _ _, hvl, ?_⟩
  intro key hk
  exact Assoc.find_set_ne _ _ (Ne.symm hk)

theorem scanorama_predict_partial_mutation_on_missing_flag_witness :
    (Assoc.find "_labelled_train_indices" (exPredA []).obs = some (Col.bool [true, true])
      ∧ ([true, true] : List Bool).length = (exPredA []).obs_names.length
      ∧ Assoc.find "X_scanorama" (exPredA []).obsm = some [[0], [1]]
      ∧ Assoc.find exSk1.labels_key (exPredA []).obs = some (Col.cat ["A", "B"] [0, 1])
      ∧ PDict.lookup "n_neighbors" exSk1.classifier_dict = some (PValue.nat 1)
      ∧ PDict.lookup "weights" exSk1.classifier_dict = some (PValue.str "uniform")
      ∧ 1 ≤ 1 ∧ 1 ≤ (maskIdx [true, true]).length
      ∧ (∀ i ∈ maskIdx [true, true], i < ([0, 1] : List Int).length
          ∧ 0 ≤ ([0, 1] : List Int).getD i 0
          ∧ (([0, 1] : List Int).getD i 0).toNat < (["A", "B"] : List String).length)
      ∧ Assoc.find "_return_probabilities" (exPredA []).uns = none)
    ∧ ∃ (a1 : AnnData) (vals : List String),
      SCANORAMA.predict exSk1 (exPredA []) "popv_knn_on_scanorama_prediction"
        = PyRes.err "KeyError: _return_probabilities" a1
      ∧ Assoc.find exSk1.result_key a1.obs = some (Col.strs vals)
      ∧ vals.length = ([[0], [1]] : Mat).length
      ∧ (∀ key, key ≠ exSk1.result_key →
          Assoc.find key a1.obs = Assoc.find key (exPredA []).obs) :=
  ⟨⟨by decide, by decide, by decide, by decide, by decide, by decide, by decide,
    by decide, by decide, by decide⟩,
    @scanorama_predict_partial_mutation_on_missing_flag exSk1 (exPredA [])
      "popv_knn_on_scanorama_prediction" [true, true] [[0], [1]] ["A", "B"] [0, 1] 1
      (by decide) (by decide) (by decide) (by decide) (by decide) (by decide)
      (by decide) (by decide) (by decide) (by decide)⟩

/-- C3: under the preconditions of `predict`, if the global flag
`"_return_probabilities"` is false no probability column is created (the
lookup of `result_key + "_probabilities"` is exactly as before the call),
and if it is true a probability column named
`result_key + "_probabilities"` is created, with one entry per observation,
every entry lying in the closed interval from 0 to 1. -/
theorem scanorama_predict_probability_column_spec (s : SCANORAMA)
    (a : AnnData) (rk : String)
    {mask : List Bool} {rep : Mat} {cats : List String} {lcodes : List Int} {k : Nat}
    (Hmask : Assoc.find "_labelled_train_indices" a.obs = some (Col.bool mask))
    (Hmlen : mask.length = a.obs_names.length)
    (Hrep : Assoc.find "X_scanorama" a.obsm = some rep)
    (Hlab : Assoc.find s.labels_key a.obs = some (Col.cat cats lcodes))
    (Hk : PDict.lookup "n_neighbors" s.classifier_dict = some (PValue.nat k))
    (Hw : PDict.lookup "weights" s.classifier_dict = some (PValue.str "uniform"))
    (Hk1 : 1 ≤ k) (Hkle : k ≤ (maskIdx mask).length)
    (Hvalid : ∀ i ∈ maskIdx mask, i < lcodes.length ∧ 0 ≤ lcodes.getD i 0
      ∧ (lcodes.getD i 0).toNat < cats.length) :
    (Assoc.find "_return_probabilities" a.uns = some (UnsVal.bool false) →
      ∃ a', SCANORAMA.predict s a rk = PyRes.ok a'
        ∧ Assoc.find (s.result_key ++ "_probabilities") a'.obs
            = Assoc.find (s.result_key ++ "_probabilities") a.obs)
    ∧ (Assoc.find "_return_probabilities" a.uns = some (UnsVal.bool true) →
      ∃ (a' : AnnData) (ps : List ℚ), SCANORAMA.predict s a rk = PyRes.ok a'
        ∧ Assoc.find (s.result_key ++ "_probabilities") a'.obs = some (Col.num ps)
        ∧ ps.length = rep.length
        ∧ ∀ p ∈ ps, 0 ≤ p ∧ p ≤ 1) := by
  obtain ⟨pcodes, vals, hpc, hv, hvl, hvm⟩ := predict_values_spec mask Hk1 Hkle Hvalid
  constructor
  · intro Huns
    have hctrl := predict_ctrl_some s a rk Hmask Hmlen Hrep Hlab Hk Hw Hk1 Hkle
      hpc hv Huns
    rw [if_neg (by decide)] at hctrl
    exact ⟨_, hctrl,
      Assoc.find_set_ne _ _ (result_key_ne_proba_key s.result_key)⟩
  · intro Huns
    have hctrl := predict_ctrl_some s a rk Hmask Hmlen Hrep Hlab Hk Hw Hk1 Hkle
      hpc hv Huns
    rw [if_pos (by decide)] at hctrl
    obtain ⟨ps, hps, hpl, hpb⟩ := @predict_proba_spec rep lcodes k mask Hk1 Hkle
    rw [hps] at hctrl
    have hok : SCANORAMA.predict s a rk = PyRes.ok { a with
        obs := (Assoc.set (s.result_key ++ "_probabilities") (Col.num ps)
          (Assoc.set s.result_key (Col.strs vals) a.obs)) } := by
      rw [hctrl]
    exact ⟨_, ps, hok, Assoc.find_set_self _ _ _, hpl, hpb⟩

theorem scanorama_predict_probability_column_spec_witness :
    (Assoc.find "_labelled_train_indices"
        (exPredA [("_return_probabilities", UnsVal.bool true)]).obs
        = some (Col.bool [true, true])
      ∧ ([true, true] : List Bool).length
          = (exPredA [("_return_probabilities", UnsVal.bool true)]).obs_names.length
      ∧ Assoc.find "X_scanorama"
          (exPredA [("_return_probabilities", UnsVal.bool true)]).obsm = some [[0], [1]]
      ∧ Assoc.find exSk1.labels_key
          (exPredA [("_return_probabilities", UnsVal.bool true)]).obs
          = some (Col.cat ["A", "B"] [0, 1])
      ∧ PDict.lookup "n_neighbors" exSk1.classifier_dict = some (PValue.nat 1)
      ∧ PDict.lookup "weights" exSk1.classifier_dict = some (PValue.str "uniform")
      ∧ 1 ≤ 1 ∧ 1 ≤ (maskIdx [true, true]).length
      ∧ (∀ i ∈ maskIdx [true, true], i < ([0, 1] : List Int).length
          ∧ 0 ≤ ([0, 1] : List Int).getD i 0
          ∧ (([0, 1] : List Int).getD i 0).toNat < (["A", "B"] : List String).length))
    ∧ ((Assoc.find "_return_probabilities"
          (exPredA [("_return_probabilities", UnsVal.bool true)]).uns
          = some (UnsVal.bool false) →
        ∃ a', SCANORAMA.predict exSk1 (exPredA [("_return_probabilities", UnsVal.bool true)])
            "popv_knn_on_scanorama_prediction" = PyRes.ok a'
          ∧ Assoc.find (exSk1.result_key ++ "_probabilities") a'.obs
              = Assoc.find (exSk1.result_key ++ "_probabilities")
                  (exPredA [("_return_probabilities", UnsVal.bool true)]).obs)
      ∧ (Assoc.find "_return_probabilities"
          (exPredA [("_return_probabilities", UnsVal.bool true)]).uns
          = some (UnsVal.bool true) →
        ∃ (a' : AnnData) (ps : List ℚ),
          SCANORAMA.predict exSk1 (exPredA [("_return_probabilities", UnsVal.bool true)])
            "popv_knn_on_scanorama_prediction" = PyRes.ok a'
          ∧ Assoc.find (exSk1.result_key ++ "_probabilities") a'.obs = some (Col.num ps)
          ∧ ps.length = ([[0], [1]] : Mat).length
          ∧ ∀ p ∈ ps, 0 ≤ p ∧ p ≤ 1)) :=
  ⟨⟨by decide, by decide, by decide, by decide, by decide, by decide, by decide,
    by decide, by decide⟩,
    @scanorama_predict_probability_column_spec exSk1
      (exPredA [("_return_probabilities", UnsVal.bool true)])
      "popv_knn_on_scanorama_prediction" [true, true] [[0], [1]] ["A", "B"] [0, 1] 1
      (by decide) (by decide) (by decide) (by decide) (by decide) (by decide)
      (by decide) (by decide) (by decide)⟩

/-- C4: a completed run of `predict` leaves the ground-truth label column
(and every other observation column except the result column and the
probability column) exactly as it was, and does not touch the feature
matrix, the representations, the pairwise matrices, the global mapping or
the observation names.  The key-distinctness hypotheses reflect the
specification's invariant that result keys must not collide with other
columns (a caller responsibility). -/
theorem scanorama_predict_preserves_labels_column (s : SCANORAMA)
    (a : AnnData) (rk : String)
    {mask : List Bool} {rep : Mat} {cats : List String} {lcodes : List Int} {k : Nat}
    {v : UnsVal}
    (Hmask : Assoc.find "_labelled_train_indices" a.obs = some (Col.bool mask))
    (Hmlen : mask.length = a.obs_names.length)
    (Hrep : Assoc.find "X_scanorama" a.obsm = some rep)
    (Hlab : Assoc.find s.labels_key a.obs = some (Col.cat cats lcodes))
    (Hk : PDict.lookup "n_neighbors" s.classifier_dict = some (PValue.nat k))
    (Hw : PDict.lookup "weights" s.classifier_dict = some (PValue.str "uniform"))
    (Hk1 : 1 ≤ k) (Hkle : k ≤ (maskIdx mask).length)
    (Hvalid : ∀ i ∈ maskIdx mask, i < lcodes.length ∧ 0 ≤ lcodes.getD i 0
      ∧ (lcodes.getD i 0).toNat < cats.length)
    (Huns : Assoc.find "_return_probabilities" a.uns = some v)
    (hne1 : s.labels_key ≠ s.result_key)
    (hne2 : s.labels_key ≠ s.result_key ++ "_probabilities") :
    ∃ a', SCANORAMA.predict s a rk = PyRes.ok a'
      ∧ Assoc.find s.labels_key a'.obs = Assoc.find s.labels_key a.obs
      ∧ (∀ key, key ≠ s.result_key → key ≠ s.result_key ++ "_probabilities" →
          Assoc.find key a'.obs = Assoc.find key a.obs)
      ∧ a'.obsm = a.obsm ∧ a'.X = a.X ∧ a'.uns = a.uns ∧ a'.obsp = a.obsp
      ∧ a'.obs_names = a.obs_names := by
  obtain ⟨pcodes, vals, hpc, hv, hvl, hvm⟩ := predict_values_spec mask Hk1 Hkle Hvalid
  have hctrl := predict_ctrl_some s a rk Hmask Hmlen Hrep Hlab Hk Hw Hk1 Hkle
    hpc hv Huns
  cases htv : UnsVal.truthy v with
  | false =>
    rw [if_neg (by simp [htv])] at hctrl
    refine ⟨_, hctrl, ?_, ?_, rfl, rfl, rfl, rfl, rfl⟩
    · exact Assoc.find_set_ne _ _ (Ne.symm hne1)
    · intro key hk1 hk2
      exact Assoc.find_set_ne _ _ (Ne.symm hk1)
  | true =>
    rw [if_pos htv] at hctrl
    obtain ⟨ps, hps, hpl, hpb⟩ := @predict_proba_spec rep lcodes k mask Hk1 Hkle
    rw [hps] at hctrl
    have hok : SCANORAMA.predict s a rk = PyRes.ok { a with
        obs := (Assoc.set (s.result_key ++ "_probabilities") (Col.num ps)
          (Assoc.set s.result_key (Col.strs vals) a.obs)) } := by
      rw [hctrl]
    refine ⟨_, hok, ?_, ?_, rfl, rfl, rfl, rfl, rfl⟩
    · rw [Assoc.find_set_ne _ _ (Ne.symm hne2), Assoc.find_set_ne _ _ (Ne.symm hne1)]
    · intro key hk1 hk2
      rw [Assoc.find_set_ne _ _ (Ne.symm hk2), Assoc.find_set_ne _ _ (Ne.symm hk1)]

theorem scanorama_predict_preserves_labels_column_witness :
    (Assoc.find "_labelled_train_indices"
        (exPredA [("_return_probabilities", UnsVal.bool false)]).obs
        = some (Col.bool [true, true])
      ∧ ([true, true] : List Bool).length
          = (exPredA [("_return_probabilities", UnsVal.bool false)]).obs_names.length
      ∧ Assoc.find "X_scanorama"
          (exPredA [("_return_probabilities", UnsVal.bool false)]).obsm = some [[0], [1]]
      ∧ Assoc.find exSk1.labels_key
          (exPredA [("_return_probabilities", UnsVal.bool false)]).obs
          = some (Col.cat ["A", "B"] [0, 1])
      ∧ PDict.lookup "n_neighbors" exSk1.classifier_dict = some (PValue.nat 1)
      ∧ PDict.lookup "weights" exSk1.classifier_dict = some (PValue.str "uniform")
      ∧ 1 ≤ 1 ∧ 1 ≤ (maskIdx [true, true]).length
      ∧ (∀ i ∈ maskIdx [true, true], i < ([0, 1] : List Int).length
          ∧ 0 ≤ ([0, 1] : List Int).getD i 0
          ∧ (([0, 1] : List Int).getD i 0).toNat < (["A", "B"] : List String).length)
      ∧ Assoc.find "_return_probabilities"
          (exPredA [("_return_probabilities", UnsVal.bool false)]).uns
          = some (UnsVal.bool false)
      ∧ exSk1.labels_key ≠ exSk1.result_key
      ∧ exSk1.labels_key ≠ exSk1.result_key ++ "_probabilities")
    ∧ ∃ a', SCANORAMA.predict exSk1 (exPredA [("_return_probabilities", UnsVal.bool false)])
        "popv_knn_on_scanorama_prediction" = PyRes.ok a'
      ∧ Assoc.find exSk1.labels_key a'.obs
          = Assoc.find exSk1.labels_key
              (exPredA [("_return_probabilities", UnsVal.bool false)]).obs
      ∧ (∀ key, key ≠ exSk1.result_key → key ≠ exSk1.result_key ++ "_probabilities" →
          Assoc.find key a'.obs
            = Assoc.find key (exPredA [("_return_probabilities", UnsVal.bool false)]).obs)
      ∧ a'.obsm = (exPredA [("_return_probabilities", UnsVal.bool false)]).obsm
      ∧ a'.X = (exPredA [("_return_probabilities", UnsVal.bool false)]).X
      ∧ a'.uns = (exPredA [("_return_probabilities", UnsVal.bool false)]).uns
      ∧ a'.obsp = (exPredA [("_return_probabilities", UnsVal.bool false)]).obsp
      ∧ a'.obs_names = (exPredA [("_return_probabilities", UnsVal.bool false)]).obs_names :=
  ⟨⟨by decide, by decide, by decide, by decide, by decide, by decide, by decide,
    by decide, by decide, by decide, by decide, by decide⟩,
    @scanorama_predict_preserves_labels_column exSk1
      (exPredA [("_return_probabilities", UnsVal.bool false)])
      "popv_knn_on_scanorama_prediction" [true, true] [[0], [1]] ["A", "B"] [0, 1] 1
      (UnsVal.bool false)
      (by decide) (by decide) (by decide) (by decide) (by decide) (by decide)
      (by decide) (by decide) (by decide) (by decide) (by decide) (by decide)⟩

/-- C7: a completed run of `predict` (fitted on the labelled training
subset, applied to every observation) writes a result column under the
adapter's configured result key with one non-null entry per observation,
every entry drawn from the category set of the labels column. -/
theorem scanorama_predict_labels_from_category_set (s : SCANORAMA)
    (a : AnnData) (rk : String)
    {mask : List Bool} {rep : Mat} {cats : List String} {lcodes : List Int} {k : Nat}
    {v : UnsVal}
    (Hmask : Assoc.find "_labelled_train_indices" a.obs = some (Col.bool mask))
    (Hmlen : mask.length = a.obs_names.length)
    (Hrep : Assoc.find "X_scanorama" a.obsm = some rep)
    (Hlab : Assoc.find s.labels_key a.obs = some (Col.cat cats lcodes))
    (Hk : PDict.lookup "n_neighbors" s.classifier_dict = some (PValue.nat k))
    (Hw : PDict.lookup "weights" s.classifier_dict = some (PValue.str "uniform"))
    (Hk1 : 1 ≤ k) (Hkle : k ≤ (maskIdx mask).length)
    (Hvalid : ∀ i ∈ maskIdx mask, i < lcodes.length ∧ 0 ≤ lcodes.getD i 0
      ∧ (lcodes.getD i 0).toNat < cats.length)
    (Hreplen : rep.length = a.obs_names.length)
    (Huns : Assoc.find "_return_probabilities" a.uns = some v) :
    ∃ (a' : AnnData) (vals : List String),
      SCANORAMA.predict s a rk = PyRes.ok a'
      ∧ Assoc.find s.result_key a'.obs = some (Col.strs vals)
      ∧ vals.length = a.obs_names.length
      ∧ ∀ x ∈ vals, x ∈ cats := by
  obtain ⟨pcodes, vals, hpc, hv, hvl, hvm⟩ := predict_values_spec mask Hk1 Hkle Hvalid
  have hctrl := predict_ctrl_some s a rk Hmask Hmlen Hrep Hlab Hk Hw Hk1 Hkle
    hpc hv Huns
  cases htv : UnsVal.truthy v with
  | false =>
    rw [if_neg (by simp [htv])] at hctrl
    exact ⟨_, vals, hctrl, Assoc.find_set_self _ _ _, hvl.trans Hreplen, hvm⟩
  | true =>
    rw [if_pos htv] at hctrl
    obtain ⟨ps, hps, hpl, hpb⟩ := @predict_proba_spec rep lcodes k mask Hk1 Hkle
    rw [hps] at hctrl
    have hok : SCANORAMA.predict s a rk = PyRes.ok { a with
        obs := (Assoc.set (s.result_key ++ "_probabilities") (Col.num ps)
          (Assoc.set s.result_key (Col.strs vals) a.obs)) } := by
      rw [hctrl]
    refine ⟨_, vals, hok, ?_, hvl.trans Hreplen, hvm⟩
    rw [Assoc.find_set_ne _ _ (Ne.symm (result_key_ne_proba_key s.result_key))]
    exact Assoc.find_set_self _ _ _

theorem scanorama_predict_labels_from_category_set_witness :
    (Assoc.find "_labelled_train_indices"
        (exPredA [("_return_probabilities", UnsVal.bool true)]).obs
        = some (Col.bool [true, true])
      ∧ ([true, true] : List Bool).length
          = (exPredA [("_return_probabilities", UnsVal.bool true)]).obs_names.length
      ∧ Assoc.find "X_scanorama"
          (exPredA [("_return_probabilities", UnsVal.bool true)]).obsm = some [[0], [1]]
      ∧ Assoc.find exSk1.labels_key
          (exPredA [("_return_probabilities", UnsVal.bool true)]).obs
          = some (Col.cat ["A", "B"] [0, 1])
      ∧ PDict.lookup "n_neighbors" exSk1.classifier_dict = some (PValue.nat 1)
      ∧ PDict.lookup "weights" exSk1.classifier_dict = some (PValue.str "uniform")
      ∧ 1 ≤ 1 ∧ 1 ≤ (maskIdx [true, true]).length
      ∧ (∀ i ∈ maskIdx [true, true], i < ([0, 1] : List Int).length
          ∧ 0 ≤ ([0, 1] : List Int).getD i 0
          ∧ (([0, 1] : List Int).getD i 0).toNat < (["A", "B"] : List String).length)
      ∧ ([[0], [1]] : Mat).length
          = (exPredA [("_return_probabilities", UnsVal.bool true)]).obs_names.length
      ∧ Assoc.find "_return_probabilities"
          (exPredA [("_return_probabilities", UnsVal.bool true)]).uns
          = some (UnsVal.bool true))
    ∧ ∃ (a' : AnnData) (vals : List String),
      SCANORAMA.predict exSk1 (exPredA [("_return_probabilities", UnsVal.bool true)])
        "popv_knn_on_scanorama_prediction" = PyRes.ok a'
      ∧ Assoc.find exSk1.result_key a'.obs = some (Col.strs vals)
      ∧ vals.length
          = (exPredA [("_return_probabilities", UnsVal.bool true)]).obs_names.length
      ∧ ∀ x ∈ vals, x ∈ (["A", "B"] : List String) :=
  ⟨⟨by decide, by decide, by decide, by decide, by decide, by decide, by decide,
    by decide, by decide, by decide, by decide⟩,
    @scanorama_predict_labels_from_category_set exSk1
      (exPredA [("_return_probabilities", UnsVal.bool true)])
      "popv_knn_on_scanorama_prediction" [true, true] [[0], [1]] ["A", "B"] [0, 1] 1
      (UnsVal.bool true)
      (by decide) (by decide) (by decide) (by decide) (by decide) (by decide)
      (by decide) (by decide) (by decide) (by decide) (by decide)⟩

/-- C1 (refuting the claim as stated): the `result_key` parameter of
`predict` is used only in the source's log message; the write always goes
to the adapter attribute `result_key` fixed at construction.  Two
consecutive calls with the argument values `"key_a"` and `"key_b"` on a
container with two labelled observations both return normally, yet
afterwards neither a `"key_a"` nor a `"key_b"` column exists — both runs
wrote the constructor-configured column instead. -/
theorem scanorama_predict_ignores_result_key_argument :
    isOk (SCANORAMA.predict exSk1
      (exPredA [("_return_probabilities", UnsVal.bool false)]) "key_a") = true
    ∧ isOk (SCANORAMA.predict exSk1
        (resState (SCANORAMA.predict exSk1
          (exPredA [("_return_probabilities", UnsVal.bool false)]) "key_a")) "key_b")
        = true
    ∧ Assoc.find "key_a"
        (resState (SCANORAMA.predict exSk1
          (resState (SCANORAMA.predict exSk1
            (exPredA [("_return_probabilities", UnsVal.bool false)]) "key_a"))
          "key_b")).obs = none
    ∧ Assoc.find "key_b"
        (resState (SCANORAMA.predict exSk1
          (resState (SCANORAMA.predict exSk1
            (exPredA [("_return_probabilities", UnsVal.bool false)]) "key_a"))
          "key_b")).obs = none
    ∧ Assoc.find "popv_knn_on_scanorama_prediction"
        (resState (SCANORAMA.predict exSk1
          (resState (SCANORAMA.predict exSk1
            (exPredA [("_return_probabilities", UnsVal.bool false)]) "key_a"))
          "key_b")).obs = some (Col.strs ["A", "B"]) := by
  decide

end PopV
